import Mathlib

/-!
# go-clean-architecture: the middleware pipeline and the structured logger

A shallow embedding of

* `pkg/logger/logger.go` and `pkg/logger/zap/zap.go` (field merging),
* `internal/infra/http/middleware/middleware.go` (RequestID, Logger, CORS, ErrorHandler),
* `internal/infra/http/server.go` (the order in which the middleware and routes are registered),

together with the parts of the libraries they call (gin's `Context`, `responseWriter`, handler
chain, router dispatch and `Recovery`; `net/http` headers; `uuid.UUID.String`).  `Server.Start`
and `Server.Shutdown` only log and hand over to `net/http`; the life cycle of the listener is
not embedded.

Conventions.  A Go `map[string]T` is an association list with unique keys
(`AList`); ranging over a map walks its entries in the stored order, and every statement below is
independent of that order.  A Go `string` is a Lean `String` (its UTF-8 text).  Go `int` values
are `Int`.  A handler is a function of the context; a panic is the second constructor of
`gin.Outcome` and carries the context as it was when the panic was raised.
-/

/-! ## pkg/logger -/

namespace logger

/-- Severity of a log entry (`logger.Level`). -/
inductive Level where
  | DebugLevel
  | InfoLevel
  | WarnLevel
  | ErrorLevel
  | FatalLevel
  deriving DecidableEq, Repr

/-- The dynamic values the program stores in an `interface{}`: strings, integers, durations
(nanoseconds), and a tag for anything else. -/
inductive Value where
  | str (s : String)
  | int (n : Int)
  | duration (ns : Nat)
  | other (tag : String)
  deriving DecidableEq, Repr

/-- From logger.go: `type Fields map[string]interface{}`. -/
abbrev Fields := AList (fun _ : String => Value)

/-- A composite literal `logger.Fields{k1: v1, ..., kn: vn}`, the keys written left to right. -/
def Fields.literal (kvs : List (String × Value)) : Fields :=
  kvs.foldl (fun m kv => m.insert kv.1 kv.2) ∅

/-- One call received by an implementation of the `logger.Logger` interface: the level method
that was called, the message, and the variadic field sets. -/
structure Call where
  level : Level
  msg : String
  fields : List Fields
  deriving DecidableEq

end logger

/-! ## pkg/logger/zap -/

namespace zap

/-- A `zap.Field` as built by `zap.Any(key, value)`. -/
structure Field where
  Key : String
  Interface : logger.Value
  deriving DecidableEq, Repr

/-- From zap.go: `zap.Any`. -/
def Any (key : String) (value : logger.Value) : Field := ⟨key, value⟩

/-- The loop `for k, v := range f { mergedFields[k] = v }`. -/
def mergeInto (mergedFields : logger.Fields) (f : logger.Fields) : logger.Fields :=
  f.entries.foldl (fun m kv => m.insert kv.1 kv.2) mergedFields

/-- From zap.go: `Logger.convertToZapFields` (lines 138-144): one `zap.Any(k, v)` is appended per
entry of the map. -/
def convertToZapFields (fields : logger.Fields) : List Field :=
  fields.entries.foldl (fun zapFields kv => zapFields ++ [Any kv.1 kv.2]) []

/-- From zap.go: `Logger.getZapFields` (lines 121-136; the context argument is not used by the
source). -/
def getZapFields (fields : List logger.Fields) : List Field :=
  if fields.length = 0 then []
  else
    let mergedFields := fields.foldl mergeInto (∅ : logger.Fields)
    convertToZapFields mergedFields

/-- What the zap backend receives from one level call. -/
structure Entry where
  level : logger.Level
  msg : String
  fields : List Field
  deriving DecidableEq

/-- From zap.go: `Logger.Debug`. -/
def Debug (msg : String) (fields : List logger.Fields) : Entry :=
  ⟨logger.Level.DebugLevel, msg, getZapFields fields⟩

/-- From zap.go: `Logger.Info`. -/
def Info (msg : String) (fields : List logger.Fields) : Entry :=
  ⟨logger.Level.InfoLevel, msg, getZapFields fields⟩

/-- From zap.go: `Logger.Warn`. -/
def Warn (msg : String) (fields : List logger.Fields) : Entry :=
  ⟨logger.Level.WarnLevel, msg, getZapFields fields⟩

/-- From zap.go: `Logger.Error`. -/
def Error (msg : String) (fields : List logger.Fields) : Entry :=
  ⟨logger.Level.ErrorLevel, msg, getZapFields fields⟩

/-- From zap.go: `Logger.Fatal`. -/
def Fatal (msg : String) (fields : List logger.Fields) : Entry :=
  ⟨logger.Level.FatalLevel, msg, getZapFields fields⟩

end zap

/-! ## net/http: headers and the request as the handlers read it -/

namespace nethttp

/-- From net/http: `http.Header`: canonical key to list of values. -/
abbrev Header := AList (fun _ : String => List String)

/-- The bytes `textproto` accepts in a header field name (RFC 7230 token characters). -/
def validHeaderFieldByte (c : Char) : Bool :=
  c.isAlphanum || [33, 35, 36, 37, 38, 39, 42, 43, 45, 46, 94, 95, 96, 124, 126].contains c.toNat

/-- The letter-case pass of `textproto.canonicalMIMEHeaderKey`: upper-case the first letter and
every letter that follows a hyphen, lower-case the others. -/
def canonicalLetters : Bool → List Char → List Char
  | _, [] => []
  | upper, c :: cs =>
    let c1 :=
      if upper && decide ('a' ≤ c ∧ c ≤ 'z') then Char.ofNat (c.toNat - 32)
      else if !upper && decide ('A' ≤ c ∧ c ≤ 'Z') then Char.ofNat (c.toNat + 32)
      else c
    c1 :: canonicalLetters (c1 == '-') cs

/-- From net/http: `http.CanonicalHeaderKey`: a name with a byte outside the token set is returned
unchanged. -/
def CanonicalHeaderKey (s : String) : String :=
  if s.data.all validHeaderFieldByte then String.mk (canonicalLetters true s.data) else s

/-- From net/http: `Header.Get`: the first value stored under the canonical key, `""` when there
is none. -/
def Header.Get (h : Header) (key : String) : String :=
  match h.lookup (CanonicalHeaderKey key) with
  | some (v :: _) => v
  | _ => ""

/-- From net/http: `Header.Set`: replaces whatever is stored under the canonical key by the single
value. -/
def Header.Set (h : Header) (key value : String) : Header :=
  h.insert (CanonicalHeaderKey key) [value]

/-- From net/http: `Header.Del`. -/
def Header.Del (h : Header) (key : String) : Header :=
  h.erase (CanonicalHeaderKey key)

/-- The parts of `*http.Request` the program reads.  `Path` and `RawQuery` are the fields of
`Request.URL`; `RemoteIP` stands for what gin's `ClientIP()` derives from the connection and the
proxy headers. -/
structure Request where
  Method : String
  Path : String
  RawQuery : String
  Header : Header
  RemoteIP : String

end nethttp

/-! ## github.com/google/uuid -/

namespace uuid

/-- A `uuid.UUID`, that is `[16]byte`. -/
structure UUID where
  bytes : List Nat
  size : bytes.length = 16
  small : ∀ b ∈ bytes, b < 256

/-- One hexadecimal digit, lower case (`hex.Encode` uses `0123456789abcdef`). -/
def hexDigit (n : Nat) : Char :=
  if n < 10 then Char.ofNat (48 + n) else Char.ofNat (87 + n)

/-- From the uuid package: `hex.Encode` of a run of bytes. -/
def hexEncode (bs : List Nat) : List Char :=
  bs.flatMap (fun b => [hexDigit (b / 16), hexDigit (b % 16)])

/-- From the uuid package: `UUID.String` (`encodeHex`): `xxxxxxxx-xxxx-xxxx-xxxx-xxxxxxxxxxxx`. -/
def UUID.String (u : UUID) : String :=
  String.mk (hexEncode (u.bytes.take 4) ++ '-' :: hexEncode ((u.bytes.drop 4).take 2)
    ++ '-' :: hexEncode ((u.bytes.drop 6).take 2) ++ '-' :: hexEncode ((u.bytes.drop 8).take 2)
    ++ '-' :: hexEncode (u.bytes.drop 10))

end uuid

/-! ## config -/

namespace config

/-- The fields of `config.Config` that the program reads.  The package that declares the type is
not among the sources; the field types are those the uses force: the three CORS lists are indexed
and their elements passed as header text, `CorsMaxAge` is converted with `rune(...)`, so it is an
integer. -/
structure Config where
  AppEnv : String
  ServerPort : String
  CorsAllowedOrigins : List String
  CorsAllowedMethods : List String
  CorsAllowedHeaders : List String
  CorsMaxAge : Int

end config

/-! ## Go conversions -/

namespace golang

/-- The conversion `rune(x)` of an integer: truncation to a signed 32-bit value. -/
def rune (x : Int) : Int := (x + 2147483648) % 4294967296 - 2147483648

/-- The conversion `string(r)` of a rune: the UTF-8 text of the code point `r`, and of U+FFFD
when `r` is not a valid code point (negative, a surrogate, or above U+10FFFF). -/
def runeToString (r : Int) : String :=
  if 0 ≤ r ∧ (r < 55296 ∨ (57343 < r ∧ r ≤ 1114111)) then
    String.singleton (Char.ofNat r.toNat)
  else String.singleton (Char.ofNat 65533)

/-- The function `strconv.Itoa`: the decimal text of an integer. -/
def Itoa (x : Int) : String :=
  if x < 0 then "-" ++ Nat.repr x.natAbs else Nat.repr x.natAbs

end golang

/-! ## gin: response writer, context, handler chain -/

namespace gin

/-- One payload handed to `ResponseWriter.Write`.  A JSON rendering is kept as the object that
was marshalled (a `gin.H` with string values), so no statement depends on JSON escaping. -/
inductive Chunk where
  | json (obj : List (String × String))
  | text (s : String)
  deriving DecidableEq, Repr

/-- The `responseWriter` of gin with the underlying `http.ResponseWriter`: the status, whether the
header has been written (`size != noWritten`), the header map and the payloads written so far, in
order. -/
structure ResponseWriter where
  status : Int
  written : Bool
  header : nethttp.Header
  body : List Chunk

/-- From gin: `responseWriter.WriteHeader`: a positive code different from the current one
replaces it, unless the header has already been written (as in gin 1.10; earlier releases print
the same warning and overwrite the status; nothing proved below writes a different status after
the header). -/
def ResponseWriter.WriteHeader (w : ResponseWriter) (code : Int) : ResponseWriter :=
  if 0 < code ∧ w.status ≠ code then
    if w.written then w else { w with status := code }
  else w

/-- From gin: `responseWriter.WriteHeaderNow`. -/
def ResponseWriter.WriteHeaderNow (w : ResponseWriter) : ResponseWriter :=
  if !w.written then { w with written := true } else w

/-- From gin: `responseWriter.Write`: writes the header if that has not been done, then the
payload after what was written before. -/
def ResponseWriter.Write (w : ResponseWriter) (data : Chunk) : ResponseWriter :=
  let w1 := w.WriteHeaderNow
  { w1 with body := w1.body ++ [data] }

/-- A `gin.Error`: the message of the wrapped error (`Err.Error()`) and the optional meta
text. -/
structure Error where
  Err : String
  Meta : Option String
  deriving DecidableEq

/-- From gin: `abortIndex`, `math.MaxInt8 >> 1`. -/
def abortIndex : Int := 63

/-- A `gin.Context` during one request, with the things outside it that the middleware touches:
`log`, the calls received so far by the `logger.Logger` given to `middleware.Logger`; `now`, the
reading of the monotonic clock; `rand` and `draws`, the identifiers `uuid.New()` returns (the
next call returns `rand draws`).  `index` is an `int8` in gin; it only grows (`Next` adds one,
`Abort` sets 63) and stays far below 127 for the chains of this server. -/
structure Context where
  Request : nethttp.Request
  Writer : ResponseWriter
  Keys : AList (fun _ : String => logger.Value)
  Errors : List Error
  index : Int
  log : List logger.Call
  now : Nat
  rand : Nat → uuid.UUID
  draws : Nat

/-- The value of a Go `panic`.  `brokenConn` marks the connection errors (`broken pipe`,
`connection reset by peer`) that `Recovery` treats separately. -/
structure PanicValue where
  msg : String
  brokenConn : Bool
  deriving DecidableEq

/-- How a call of a handler ends: it returns, or it panics.  The context is shared by reference
in Go, so a panic leaves it as it was at the point of the panic. -/
inductive Outcome where
  | ok (c : Context)
  | panicked (c : Context) (v : PanicValue)

/-- The context at the end, however the call ended. -/
def Outcome.ctx : Outcome → Context
  | .ok c => c
  | .panicked c _ => c

/-- Whether the call returned normally. -/
def Outcome.returned : Outcome → Bool
  | .ok _ => true
  | .panicked _ _ => false

/-- A `gin.HandlerFunc`.  The first argument is what `c.Next()` does for this handler (running
the handlers registered after it); the body uses it wherever the source calls `c.Next()`. -/
abbrev HandlerFunc := (Context → Outcome) → Context → Outcome

/-- From gin: `Context.Abort`. -/
def Context.Abort (c : Context) : Context := { c with index := abortIndex }

/-- From gin: `Context.IsAborted`. -/
def Context.IsAborted (c : Context) : Bool := decide (abortIndex ≤ c.index)

/-- From gin: `Context.Status`. -/
def Context.Status (c : Context) (code : Int) : Context :=
  { c with Writer := c.Writer.WriteHeader code }

/-- From gin: `Context.AbortWithStatus`: `Status(code)`, `Writer.WriteHeaderNow()`, `Abort()`. -/
def Context.AbortWithStatus (c : Context) (code : Int) : Context :=
  let c1 := c.Status code
  let c2 := { c1 with Writer := c1.Writer.WriteHeaderNow }
  c2.Abort

/-- From gin: `Context.Header`: an empty value removes the header, any other value replaces it. -/
def Context.Header (c : Context) (key value : String) : Context :=
  if value = "" then { c with Writer := { c.Writer with header := c.Writer.header.Del key } }
  else { c with Writer := { c.Writer with header := c.Writer.header.Set key value } }

/-- From gin: `Context.GetHeader`: `c.Request.Header.Get(key)`. -/
def Context.GetHeader (c : Context) (key : String) : String :=
  c.Request.Header.Get key

/-- From gin: `Context.Set`. -/
def Context.Set (c : Context) (key : String) (value : logger.Value) : Context :=
  { c with Keys := c.Keys.insert key value }

/-- From gin: `Context.GetString`: the value under the key when it is a string, `""` otherwise. -/
def Context.GetString (c : Context) (key : String) : String :=
  match c.Keys.lookup key with
  | some (logger.Value.str s) => s
  | _ => ""

/-- From gin: `Context.ClientIP`. -/
def Context.ClientIP (c : Context) : String := c.Request.RemoteIP

/-- From gin: `Context.Error`: appends to `c.Errors`. -/
def Context.Error (c : Context) (err : String) : Context :=
  { c with Errors := c.Errors ++ [⟨err, none⟩] }

/-- From gin: `errorMsgs.Last`. -/
def errorMsgs.Last (a : List Error) : Option Error := a.getLast?

/-- The `%02d` verb for a non-negative number. -/
def pad2 (n : Nat) : String := if n < 10 then "0" ++ Nat.repr n else Nat.repr n

/-- The loop of `errorMsgs.String`, from entry number `i`. -/
def errorLines : Nat → List Error → String
  | _, [] => ""
  | i, e :: rest =>
    "Error #" ++ pad2 (i + 1) ++ ": " ++ e.Err ++ "\n"
      ++ (match e.Meta with
          | some m => "     Meta: " ++ m ++ "\n"
          | none => "")
      ++ errorLines (i + 1) rest

/-- From gin: `errorMsgs.String`. -/
def errorMsgs.String (a : List Error) : String :=
  if a.length = 0 then "" else errorLines 0 a

/-- From gin: `bodyAllowedForStatus`: no body for 1xx, 204 and 304. -/
def bodyAllowedForStatus (status : Int) : Bool :=
  if 100 ≤ status ∧ status ≤ 199 then false
  else if status = 204 then false
  else if status = 304 then false
  else true

/-- From gin: `writeContentType`: sets `Content-Type` unless the header already has a value
stored. -/
def writeContentType (w : ResponseWriter) (value : String) : ResponseWriter :=
  match w.header.lookup "Content-Type" with
  | some (_ :: _) => w
  | _ => { w with header := w.header.insert "Content-Type" [value] }

/-- From gin: `Context.JSON(code, gin.H{...})`, that is `Context.Render` with the JSON renderer:
`c.Status(code)` first; then, `if !bodyAllowedForStatus(code)`, only the content type and the
header are written; otherwise the content type is set and the marshalled object is written. -/
def Context.JSON (c : Context) (code : Int) (obj : List (String × String)) : Context :=
  let c1 := c.Status code
  let w := writeContentType c1.Writer "application/json; charset=utf-8"
  if !bodyAllowedForStatus code then { c1 with Writer := w.WriteHeaderNow }
  else { c1 with Writer := w.Write (Chunk.json obj) }

/-- The loop of `Context.Next`,
`for c.index < len(c.handlers) { c.handlers[c.index](c); c.index++ }`, over the handlers from
position `pos` on.  The handler at `c.index` is called with the `Next` that belongs to it; a
handler whose position is below `c.index` is passed over, which is how `Abort` stops the chain
(gin refuses chains of 63 handlers or more when they are registered). -/
def runFrom : List HandlerFunc → Int → Context → Outcome
  | [], _, c => .ok c
  | h :: rest, pos, c =>
    if c.index = pos then
      match h (fun c1 => runFrom rest (pos + 1) { c1 with index := c1.index + 1 }) c with
      | .ok c2 => runFrom rest (pos + 1) { c2 with index := c2.index + 1 }
      | .panicked c2 v => .panicked c2 v
    else runFrom rest (pos + 1) c

/-- From gin: `Context.Next` for the handler list of the request: `c.index++`, then the loop. -/
def Context.Next (handlers : List HandlerFunc) (c : Context) : Outcome :=
  runFrom handlers 0 { c with index := c.index + 1 }

/-- From gin: `gin.Recovery()`: the deferred function runs when the rest of the chain panics; for
a broken connection it records the error and aborts, otherwise `defaultHandleRecovery` answers
`AbortWithStatus(500)`.  (It also prints the panic to gin's own error writer, which is not the
application logger.) -/
def Recovery : HandlerFunc := fun next c =>
  match next c with
  | .ok c1 => .ok c1
  | .panicked c1 v =>
    if v.brokenConn then .ok (c1.Error v.msg).Abort
    else .ok (c1.AbortWithStatus 500)

/-- From gin: `Context.reset` and `responseWriter.reset` for a new request: status 200, nothing
written, no keys, no errors, index -1. -/
def Context.reset (req : nethttp.Request) (log : List logger.Call) (now : Nat)
    (rand : Nat → uuid.UUID) (draws : Nat) : Context :=
  { Request := req
    Writer := { status := 200, written := false, header := ∅, body := [] }
    Keys := ∅
    Errors := []
    index := -1
    log := log
    now := now
    rand := rand
    draws := draws }

/-- An `Engine` with static routes: the middleware of the root group and, per route, the method,
the full path and the handler chain fixed when the route was registered. -/
structure Engine where
  Handlers : List HandlerFunc
  routes : List (String × String × List HandlerFunc)

/-- From gin: `gin.New()`. -/
def New : Engine := { Handlers := [], routes := [] }

/-- From gin: `Engine.Use`: appends to the middleware of the root group. -/
def Engine.Use (e : Engine) (h : HandlerFunc) : Engine :=
  { e with Handlers := e.Handlers ++ [h] }

/-- From gin: `RouterGroup.GET` on the root group or on a group made from it without middleware
of its own: the chain of the route is the middleware registered so far followed by the
handler. -/
def Engine.GET (e : Engine) (path : String) (h : HandlerFunc) : Engine :=
  { e with routes := e.routes ++ [("GET", path, e.Handlers ++ [h])] }

/-- The chain registered for the method and the exact path. -/
def Engine.lookup (e : Engine) (method path : String) : Option (List HandlerFunc) :=
  (e.routes.find? (fun r => r.1 == method && r.2.1 == path)).map (fun r => r.2.2)

/-- Whether the router recommends a trailing-slash redirect, for routes without parameters:
there are routes for the method, none for the path, and one for the path with the final slash
removed or added. -/
def Engine.tsr (e : Engine) (method path : String) : Bool :=
  e.routes.any (fun r => r.1 == method && (r.2.1 ++ "/" == path || path ++ "/" == r.2.1))

/-- How `Engine.handleHTTPRequest` ends.  `redirected` is the trailing-slash redirect, which the
router writes itself without calling any handler; the context is the untouched one and the
redirect response is not described. -/
inductive Served where
  | handled (o : Outcome)
  | redirected (c : Context)

/-- From gin: `serveError(c, 404, default404Body)` over the chain of `NoRoute`, which is the
middleware of the root group. -/
def serveError (handlers : List HandlerFunc) (c : Context) : Outcome :=
  let c0 := { c with Writer := { c.Writer with status := 404 } }
  match c0.Next handlers with
  | .panicked c1 v => .panicked c1 v
  | .ok c1 =>
    if c1.Writer.written then .ok c1
    else if c1.Writer.status = 404 then
      .ok { c1 with Writer :=
              ({ c1.Writer with header := c1.Writer.header.insert "Content-Type" ["text/plain"] }
                : ResponseWriter).Write (Chunk.text "404 page not found") }
    else .ok { c1 with Writer := c1.Writer.WriteHeaderNow }

/-- From gin: `Engine.handleHTTPRequest` with the defaults of `gin.New()`
(`RedirectTrailingSlash` on, `RedirectFixedPath` and `HandleMethodNotAllowed` off). -/
def Engine.handleHTTPRequest (e : Engine) (c : Context) : Served :=
  match e.lookup c.Request.Method c.Request.Path with
  | some handlers =>
    match c.Next handlers with
    | .ok c1 => .handled (.ok { c1 with Writer := c1.Writer.WriteHeaderNow })
    | .panicked c1 v => .handled (.panicked c1 v)
  | none =>
    if c.Request.Method ≠ "CONNECT" ∧ c.Request.Path ≠ "/"
        ∧ e.tsr c.Request.Method c.Request.Path = true then
      .redirected c
    else .handled (serveError e.Handlers c)

/-- From gin: `Engine.ServeHTTP`: a reset context for the request, then `handleHTTPRequest`. -/
def Engine.ServeHTTP (e : Engine) (req : nethttp.Request) (log : List logger.Call) (now : Nat)
    (rand : Nat → uuid.UUID) (draws : Nat) : Served :=
  e.handleHTTPRequest (Context.reset req log now rand draws)

end gin

/-! ## internal/infra/http/middleware -/

namespace middleware

open gin

/-- From middleware.go: `uuid.New().String()`: the next identifier of the generator is drawn.  The
generator is taken to deliver; `uuid.New` panics only when the random source of the system
fails. -/
def newRequestID (c : Context) : String × Context :=
  ((c.rand c.draws).String, { c with draws := c.draws + 1 })

/-- From middleware.go: `RequestID` (lines 13-23). -/
def RequestID : HandlerFunc := fun next c =>
  let requestID := c.GetHeader "X-Request-ID"
  let (requestID, c) := if requestID = "" then newRequestID c else (requestID, c)
  let c := c.Set "RequestID" (logger.Value.str requestID)
  let c := c.Header "X-Request-ID" requestID
  next c

/-- From middleware.go: `log.Info(context.Background(), msg, fields...)` on the logger given to
the middleware. -/
def logInfo (c : Context) (msg : String) (fields : List logger.Fields) : Context :=
  { c with log := c.log ++ [⟨logger.Level.InfoLevel, msg, fields⟩] }

/-- The composite literal `logFields := logger.Fields{...}` of `Logger`, built after the rest of
the chain has run: `c` is the context at that point, `path` the path with the query appended,
`start` the clock reading taken before the chain ran. -/
def logFields (c : Context) (path : String) (start : Nat) : logger.Fields :=
  logger.Fields.literal
    [ ("request_id", logger.Value.str (c.GetString "RequestID")),
      ("client_ip", logger.Value.str c.ClientIP),
      ("method", logger.Value.str c.Request.Method),
      ("path", logger.Value.str path),
      ("status", logger.Value.int c.Writer.status),
      ("duration", logger.Value.duration (c.now - start)),
      ("errors", logger.Value.str (errorMsgs.String c.Errors)) ]

/-- From middleware.go: `Logger` (lines 26-55). -/
def Logger : HandlerFunc := fun next c =>
  let start := c.now
  let path := c.Request.Path
  let raw := c.Request.RawQuery
  match next c with
  | .panicked c v => .panicked c v
  | .ok c =>
    -- Skip logging for health check endpoints
    if path = "/health" ∨ path = "/metrics" then .ok c
    else
      let path := if raw ≠ "" then path ++ "?" ++ raw else path
      .ok (logInfo c "HTTP request log" [logFields c path start])

/-- The panic of an index expression `s[0]` on an empty slice. -/
def indexOutOfRange : PanicValue :=
  { msg := "runtime error: index out of range [0] with length 0", brokenConn := false }

/-- From middleware.go: `CORS` (lines 58-72).  Each index expression is evaluated before the
`c.Header` call it is an argument of. -/
def CORS (cfg : config.Config) : HandlerFunc := fun next c =>
  match cfg.CorsAllowedOrigins[0]? with
  | none => .panicked c indexOutOfRange
  | some origin =>
    let c := c.Header "Access-Control-Allow-Origin" origin
    match cfg.CorsAllowedMethods[0]? with
    | none => .panicked c indexOutOfRange
    | some methods =>
      let c := c.Header "Access-Control-Allow-Methods" methods
      match cfg.CorsAllowedHeaders[0]? with
      | none => .panicked c indexOutOfRange
      | some headers =>
        let c := c.Header "Access-Control-Allow-Headers" headers
        let c := c.Header "Access-Control-Max-Age"
          (golang.runeToString (golang.rune cfg.CorsMaxAge))
        if c.Request.Method = "OPTIONS" then .ok (c.AbortWithStatus 204)
        else next c

/-- From middleware.go: `ErrorHandler` (lines 75-86).  `len(c.Errors) > 0` makes `Last()` non-nil,
so the last branch of the inner match is never taken. -/
def ErrorHandler : HandlerFunc := fun next c =>
  match next c with
  | .panicked c v => .panicked c v
  | .ok c =>
    if 0 < c.Errors.length then
      match errorMsgs.Last c.Errors with
      | some err => .ok (c.JSON c.Writer.status [("error", err.Err)])
      | none => .ok c
    else .ok c

end middleware

/-! ## internal/infra/http/server.go -/

namespace server

open gin

/-- From server.go: `Server.setupMiddleware` (lines 46-55). -/
def setupMiddleware (cfg : config.Config) (router : Engine) : Engine :=
  ((((router.Use Recovery).Use middleware.RequestID).Use middleware.Logger).Use
    (middleware.CORS cfg)).Use middleware.ErrorHandler

/-- The handler of `GET /health`. -/
def healthHandler : HandlerFunc := fun _ c => .ok (c.JSON 200 [("status", "ok")])

/-- The handler of `GET /api/v1/ping`. -/
def pingHandler : HandlerFunc := fun _ c => .ok (c.JSON 200 [("message", "pong")])

/-- From server.go: `Server.setupRoutes` (lines 57-70); the group `/api/v1` adds its base path and
no middleware. -/
def setupRoutes (router : Engine) : Engine :=
  (router.GET "/health" healthHandler).GET ("/api/v1" ++ "/ping") pingHandler

/-- The router built by `NewServer`: `gin.New()`, `setupMiddleware`, `setupRoutes`. -/
def NewServer (cfg : config.Config) : Engine :=
  setupRoutes (setupMiddleware cfg gin.New)

end server

/-! ## Notions used to state the properties -/

namespace pipeline

open gin

/-- The identifier `RequestID` settles on: the inbound header, or the next identifier of the
generator when the header is absent or empty. -/
def requestIDOf (c : Context) : String :=
  if c.GetHeader "X-Request-ID" = "" then (c.rand c.draws).String else c.GetHeader "X-Request-ID"

/-- The context `RequestID` hands to the rest of the chain. -/
def afterRequestID (c : Context) : Context :=
  let c1 : Context :=
    if c.GetHeader "X-Request-ID" = "" then { c with draws := c.draws + 1 } else c
  (c1.Set "RequestID" (logger.Value.str (requestIDOf c))).Header "X-Request-ID" (requestIDOf c)

/-- The context after the four `c.Header` calls of `CORS`, for the first elements `o`, `m`, `h`
of the three lists. -/
def afterCORSHeaders (cfg : config.Config) (o m h : String) (c : Context) : Context :=
  (((c.Header "Access-Control-Allow-Origin" o).Header "Access-Control-Allow-Methods" m).Header
    "Access-Control-Allow-Headers" h).Header "Access-Control-Max-Age"
    (golang.runeToString (golang.rune cfg.CorsMaxAge))

/-- The three CORS lists of the configuration all have a first element. -/
def corsListsNonEmpty (cfg : config.Config) : Bool :=
  !cfg.CorsAllowedOrigins.isEmpty && !cfg.CorsAllowedMethods.isEmpty
    && !cfg.CorsAllowedHeaders.isEmpty

/-- The `request_id` field of a call received by the logger, when the call carries exactly one
field set and that field set has a string under `request_id`. -/
def requestIDField (r : logger.Call) : Option String :=
  match r.fields with
  | [f] =>
    match f.lookup "request_id" with
    | some (logger.Value.str s) => some s
    | _ => none
  | _ => none

/-- The context at the end of the request, however it was answered. -/
def ctxOf : Served → Context
  | .handled o => o.ctx
  | .redirected c => c

/-- Whether the request went through the handler chain and the chain returned without an
unrecovered panic. -/
def completed : Served → Bool
  | .handled o => o.returned
  | .redirected _ => false

/-- Whether the request went through the handler chain. -/
def wasHandled : Served → Bool
  | .handled _ => true
  | .redirected _ => false

/-- The JSON error envelope for a message. -/
def envelope (m : String) : Chunk := Chunk.json [("error", m)]

end pipeline

namespace pipeline

open gin

/-- The second context has the same string under `"RequestID"`, the same `X-Request-ID` response
header and the same log as the first. -/
def Keeps (c c1 : Context) : Prop :=
  c1.GetString "RequestID" = c.GetString "RequestID"
    ∧ c1.Writer.header.Get "X-Request-ID" = c.Writer.header.Get "X-Request-ID"
    ∧ c1.log = c.log

/-- The handlers registered after the middleware run to the end without touching the request
identifier, the `X-Request-ID` response header or the log. -/
def TailKeeps (tail : List HandlerFunc) : Prop :=
  ∀ c : Context, c.index = 5 →
    ∃ c1 : Context,
      runFrom tail 5 c = .ok c1 ∧ Keeps c c1 ∧ 5 + (tail.length : Int) ≤ c1.index

end pipeline

/-! ## Concrete inputs -/

namespace examples

open gin

/-- A generator that always yields the identifier `00010203-0405-0607-0809-0a0b0c0d0e0f`. -/
def rand : Nat → uuid.UUID :=
  fun _ => ⟨[0, 1, 2, 3, 4, 5, 6, 7, 8, 9, 10, 11, 12, 13, 14, 15], by decide, by decide⟩

/-- A configuration with one entry in each CORS list and a max-age of one hour. -/
def cfg : config.Config :=
  { AppEnv := "development", ServerPort := "8080", CorsAllowedOrigins := ["*"],
    CorsAllowedMethods := ["GET"], CorsAllowedHeaders := ["Content-Type"], CorsMaxAge := 3600 }

/-- The same configuration without any allowed origin. -/
def cfgNoOrigin : config.Config := { cfg with CorsAllowedOrigins := [] }

/-- A request `GET /api/v1/ping` without headers. -/
def ping : nethttp.Request :=
  { Method := "GET", Path := "/api/v1/ping", RawQuery := "", Header := ∅,
    RemoteIP := "192.0.2.1" }

/-- A preflight request `OPTIONS /api/v1/ping`. -/
def preflight : nethttp.Request := { ping with Method := "OPTIONS" }

/-- A route handler that panics. -/
def panicking : HandlerFunc := fun _ c => .panicked c { msg := "boom", brokenConn := false }

/-- A route handler that sets status 204 and records an error. -/
def noContentWithError : HandlerFunc := fun _ c => .ok ((c.Status 204).Error "gone")

/-- A route handler that writes a JSON body with status 400 and then records an error. -/
def writesThenFails : HandlerFunc :=
  fun _ c => .ok ((c.JSON 400 [("message", "bad input")]).Error "invalid")

/-- The router of the server with one more route, `GET /boom`, whose handler panics. -/
def withPanickingRoute : Engine :=
  (server.NewServer cfg).GET "/boom" panicking

end examples

/-! ## Merging of field sets -/

namespace zap

theorem lookup_foldl_insert (l : List (Sigma (fun _ : String => logger.Value))) (hl : l.NodupKeys)
    (m : logger.Fields) (k : String) :
    (l.foldl (fun m kv => m.insert kv.1 kv.2) m).lookup k =
      match List.dlookup k l with
      | some v => some v
      | none => m.lookup k := by
  induction l generalizing m with
  | nil => simp
  | cons e l ih =>
    obtain ⟨a, b⟩ := e
    rw [List.nodupKeys_cons] at hl
    simp only [List.foldl_cons]
    rw [ih hl.2]
    by_cases hk : k = a
    · subst hk
      have : List.dlookup k l = none := by
        rw [List.dlookup_eq_none]; exact hl.1
      simp [this, AList.lookup_insert]
    · rw [List.dlookup_cons_ne l ⟨a, b⟩ hk, AList.lookup_insert_ne hk]

theorem lookup_mergeInto (m f : logger.Fields) (k : String) :
    (mergeInto m f).lookup k =
      match f.lookup k with
      | some v => some v
      | none => m.lookup k := by
  unfold mergeInto
  rw [lookup_foldl_insert f.entries f.nodupKeys]
  rfl

theorem convertToZapFields_eq (m : logger.Fields) :
    convertToZapFields m = m.entries.map (fun kv => Any kv.1 kv.2) := by
  unfold convertToZapFields
  have : ∀ (l : List (Sigma (fun _ : String => logger.Value))) (acc : List Field),
      l.foldl (fun zapFields kv => zapFields ++ [Any kv.1 kv.2]) acc
        = acc ++ l.map (fun kv => Any kv.1 kv.2) := by
    intro l
    induction l with
    | nil => simp
    | cons e l ih => intro acc; simp [ih]
  simpa using this m.entries []

theorem lookup_foldl_mergeInto (fs : List logger.Fields) (m : logger.Fields) (k : String)
    (v : logger.Value) :
    (fs.foldl mergeInto m).lookup k = some v ↔
      (∃ pre f post, fs = pre ++ f :: post ∧ f.lookup k = some v ∧ ∀ g ∈ post, g.lookup k = none)
        ∨ ((∀ g ∈ fs, g.lookup k = none) ∧ m.lookup k = some v) := by
  induction fs generalizing m with
  | nil => simp
  | cons f0 fs ih =>
    rw [List.foldl_cons, ih, lookup_mergeInto]
    constructor
    · rintro (⟨pre, f, post, h1, h2, h3⟩ | ⟨hall, hm⟩)
      · exact Or.inl ⟨f0 :: pre, f, post, by simp [h1], h2, h3⟩
      · cases h0 : f0.lookup k with
        | some w =>
          rw [h0] at hm
          injection hm with hm
          subst hm
          exact Or.inl ⟨[], f0, fs, rfl, h0, hall⟩
        | none =>
          rw [h0] at hm
          refine Or.inr ⟨?_, hm⟩
          intro g hg
          rcases List.mem_cons.1 hg with rfl | hg
          · exact h0
          · exact hall g hg
    · rintro (⟨pre, f, post, h1, h2, h3⟩ | ⟨hall, hm⟩)
      · cases pre with
        | nil =>
          simp only [List.nil_append, List.cons.injEq] at h1
          obtain ⟨rfl, rfl⟩ := h1
          refine Or.inr ⟨h3, ?_⟩
          rw [h2]
        | cons p pre =>
          simp only [List.cons_append, List.cons.injEq] at h1
          exact Or.inl ⟨pre, f, post, h1.2, h2, h3⟩
      · refine Or.inr ⟨fun g hg => hall g (List.mem_cons_of_mem _ hg), ?_⟩
        rw [hall f0 (List.mem_cons_self _ _)]
        exact hm

theorem mem_mergeInto (m f : logger.Fields) (k : String) :
    k ∈ mergeInto m f ↔ k ∈ f ∨ k ∈ m := by
  rw [← AList.lookup_isSome, ← AList.lookup_isSome, ← AList.lookup_isSome, lookup_mergeInto]
  cases f.lookup k <;> simp

theorem mem_foldl_mergeInto (fs : List logger.Fields) (m : logger.Fields) (k : String) :
    k ∈ fs.foldl mergeInto m ↔ (∃ f ∈ fs, k ∈ f) ∨ k ∈ m := by
  induction fs generalizing m with
  | nil => simp
  | cons f0 fs ih =>
    rw [List.foldl_cons, ih, mem_mergeInto]
    simp only [List.mem_cons, exists_eq_or_imp]
    constructor
    · rintro (h | h | h)
      · exact Or.inl (Or.inr h)
      · exact Or.inl (Or.inl h)
      · exact Or.inr h
    · rintro ((h | h) | h)
      · exact Or.inr (Or.inl h)
      · exact Or.inl h
      · exact Or.inr (Or.inr h)

end zap

/-- C7: the fields `getZapFields` hands to the backend are the right-biased union of the field
sets of the call: no key occurs twice; the keys are those of the field sets; a key/value pair
is handed over exactly when some field set holds it and no later field set contains the key;
without field sets nothing is handed over.  Every level method (`Debug`, `Info`, `Warn`, `Error`, `Fatal`) passes exactly these
fields. -/
theorem getZapFields_right_biased_union (fs : List logger.Fields) (msg : String) :
    ((zap.getZapFields fs).map zap.Field.Key).Nodup
    ∧ (∀ k, k ∈ (zap.getZapFields fs).map zap.Field.Key ↔ ∃ f ∈ fs, k ∈ f)
    ∧ (∀ k v, (⟨k, v⟩ : zap.Field) ∈ zap.getZapFields fs ↔
        ∃ pre f post, fs = pre ++ f :: post ∧ f.lookup k = some v
          ∧ ∀ g ∈ post, g.lookup k = none)
    ∧ zap.getZapFields [] = []
    ∧ (zap.Debug msg fs).fields = zap.getZapFields fs
    ∧ (zap.Info msg fs).fields = zap.getZapFields fs
    ∧ (zap.Warn msg fs).fields = zap.getZapFields fs
    ∧ (zap.Error msg fs).fields = zap.getZapFields fs
    ∧ (zap.Fatal msg fs).fields = zap.getZapFields fs := by
  have hconv : zap.getZapFields fs
      = (fs.foldl zap.mergeInto (∅ : logger.Fields)).entries.map (fun kv => zap.Any kv.1 kv.2) := by
    unfold zap.getZapFields
    by_cases h : fs.length = 0
    · have : fs = [] := List.length_eq_zero.1 h
      subst this
      simp
    · simp only [h, if_false]
      exact zap.convertToZapFields_eq _
  have hkeys : (zap.getZapFields fs).map zap.Field.Key
      = (fs.foldl zap.mergeInto (∅ : logger.Fields)).keys := by
    rw [hconv, List.map_map]
    rfl
  refine ⟨?_, ?_, ?_, by simp [zap.getZapFields], rfl, rfl, rfl, rfl, rfl⟩
  · rw [hkeys]
    exact (fs.foldl zap.mergeInto (∅ : logger.Fields)).keys_nodup
  · intro k
    rw [hkeys, ← AList.mem_keys, zap.mem_foldl_mergeInto]
    simp
  · intro k v
    rw [hconv]
    have hmem : (⟨k, v⟩ : zap.Field) ∈ (fs.foldl zap.mergeInto (∅ : logger.Fields)).entries.map
        (fun kv => zap.Any kv.1 kv.2)
        ↔ (fs.foldl zap.mergeInto (∅ : logger.Fields)).lookup k = some v := by
      rw [← Option.mem_def, AList.mem_lookup_iff, List.mem_map]
      constructor
      · rintro ⟨⟨a, b⟩, hab, heq⟩
        simp only [zap.Any, zap.Field.mk.injEq] at heq
        obtain ⟨rfl, rfl⟩ := heq
        exact hab
      · intro h
        exact ⟨⟨k, v⟩, h, rfl⟩
    rw [hmem, zap.lookup_foldl_mergeInto]
    simp

/-! ## Headers and context accessors -/

namespace nethttp

theorem Header.Get_Set (h : Header) (key value : String) : (h.Set key value).Get key = value := by
  simp [Header.Get, Header.Set, AList.lookup_insert]

theorem Header.Get_Del (h : Header) (key : String) : (h.Del key).Get key = "" := by
  simp [Header.Get, Header.Del]

theorem Header.Get_Set_ne (h : Header) (key key1 value : String)
    (hne : CanonicalHeaderKey key ≠ CanonicalHeaderKey key1) :
    (h.Set key1 value).Get key = h.Get key := by
  simp [Header.Get, Header.Set, AList.lookup_insert_ne hne]

theorem Header.Get_Del_ne (h : Header) (key key1 : String)
    (hne : CanonicalHeaderKey key ≠ CanonicalHeaderKey key1) :
    (h.Del key1).Get key = h.Get key := by
  simp [Header.Get, Header.Del, AList.lookup_erase_ne hne]

end nethttp

namespace uuid

theorem UUID.String_ne_empty (u : UUID) : u.String ≠ "" := by
  intro h
  have := congrArg String.data h
  simp [UUID.String] at this

end uuid

namespace gin

theorem Context.Header_Get (c : Context) (key value : String) :
    (c.Header key value).Writer.header.Get key = value := by
  unfold Context.Header
  by_cases hv : value = ""
  · simp [hv, nethttp.Header.Get_Del]
  · simp [hv, nethttp.Header.Get_Set]

theorem Context.Header_lookup (c : Context) (key value : String) :
    (c.Header key value).Writer.header.lookup (nethttp.CanonicalHeaderKey key)
      = if value = "" then none else some [value] := by
  unfold Context.Header
  by_cases hv : value = ""
  · simp [hv, nethttp.Header.Del]
  · simp [hv, nethttp.Header.Set, AList.lookup_insert]

theorem Context.Header_lookup_ne (c : Context) (key key1 value : String)
    (hne : nethttp.CanonicalHeaderKey key ≠ nethttp.CanonicalHeaderKey key1) :
    (c.Header key1 value).Writer.header.lookup (nethttp.CanonicalHeaderKey key)
      = c.Writer.header.lookup (nethttp.CanonicalHeaderKey key) := by
  unfold Context.Header
  by_cases hv : value = ""
  · simp [hv, nethttp.Header.Del, AList.lookup_erase_ne hne]
  · simp [hv, nethttp.Header.Set, AList.lookup_insert_ne hne]

theorem Context.Header_Get_ne (c : Context) (key key1 value : String)
    (hne : nethttp.CanonicalHeaderKey key ≠ nethttp.CanonicalHeaderKey key1) :
    (c.Header key1 value).Writer.header.Get key = c.Writer.header.Get key := by
  unfold Context.Header
  by_cases hv : value = ""
  · simp [hv, nethttp.Header.Get_Del_ne _ _ _ hne]
  · simp [hv, nethttp.Header.Get_Set_ne _ _ _ _ hne]

end gin

/-! ## How the context methods act on the fields -/

namespace gin

@[simp] theorem Header_index (c : Context) (k v : String) : (c.Header k v).index = c.index := by
  unfold Context.Header; split <;> rfl

@[simp] theorem Header_Request (c : Context) (k v : String) :
    (c.Header k v).Request = c.Request := by
  unfold Context.Header; split <;> rfl

@[simp] theorem Header_Keys (c : Context) (k v : String) : (c.Header k v).Keys = c.Keys := by
  unfold Context.Header; split <;> rfl

@[simp] theorem Header_Errors (c : Context) (k v : String) :
    (c.Header k v).Errors = c.Errors := by
  unfold Context.Header; split <;> rfl

@[simp] theorem Header_log (c : Context) (k v : String) : (c.Header k v).log = c.log := by
  unfold Context.Header; split <;> rfl

@[simp] theorem Header_now (c : Context) (k v : String) : (c.Header k v).now = c.now := by
  unfold Context.Header; split <;> rfl

@[simp] theorem Header_draws (c : Context) (k v : String) : (c.Header k v).draws = c.draws := by
  unfold Context.Header; split <;> rfl

@[simp] theorem Header_status (c : Context) (k v : String) :
    (c.Header k v).Writer.status = c.Writer.status := by
  unfold Context.Header; split <;> rfl

@[simp] theorem Header_written (c : Context) (k v : String) :
    (c.Header k v).Writer.written = c.Writer.written := by
  unfold Context.Header; split <;> rfl

@[simp] theorem Header_body (c : Context) (k v : String) :
    (c.Header k v).Writer.body = c.Writer.body := by
  unfold Context.Header; split <;> rfl

@[simp] theorem Header_GetString (c : Context) (k v key : String) :
    (c.Header k v).GetString key = c.GetString key := by
  simp [Context.GetString]

@[simp] theorem AbortWithStatus_index (c : Context) (code : Int) :
    (c.AbortWithStatus code).index = 63 := rfl

@[simp] theorem AbortWithStatus_Request (c : Context) (code : Int) :
    (c.AbortWithStatus code).Request = c.Request := rfl

@[simp] theorem AbortWithStatus_Keys (c : Context) (code : Int) :
    (c.AbortWithStatus code).Keys = c.Keys := rfl

@[simp] theorem AbortWithStatus_Errors (c : Context) (code : Int) :
    (c.AbortWithStatus code).Errors = c.Errors := rfl

@[simp] theorem AbortWithStatus_log (c : Context) (code : Int) :
    (c.AbortWithStatus code).log = c.log := rfl

@[simp] theorem AbortWithStatus_now (c : Context) (code : Int) :
    (c.AbortWithStatus code).now = c.now := rfl

@[simp] theorem AbortWithStatus_written (c : Context) (code : Int) :
    (c.AbortWithStatus code).Writer.written = true := by
  simp only [Context.AbortWithStatus, Context.Abort, Context.Status, ResponseWriter.WriteHeaderNow]
  split <;> simp_all

@[simp] theorem AbortWithStatus_body (c : Context) (code : Int) :
    (c.AbortWithStatus code).Writer.body = c.Writer.body := by
  simp only [Context.AbortWithStatus, Context.Abort, Context.Status, ResponseWriter.WriteHeaderNow,
    ResponseWriter.WriteHeader]
  split <;> split <;> (try split) <;> rfl

@[simp] theorem AbortWithStatus_header (c : Context) (code : Int) :
    (c.AbortWithStatus code).Writer.header = c.Writer.header := by
  simp only [Context.AbortWithStatus, Context.Abort, Context.Status, ResponseWriter.WriteHeaderNow,
    ResponseWriter.WriteHeader]
  split <;> split <;> (try split) <;> rfl

theorem AbortWithStatus_status (c : Context) (code : Int) (hcode : 0 < code)
    (hw : c.Writer.written = false) : (c.AbortWithStatus code).Writer.status = code := by
  simp only [Context.AbortWithStatus, Context.Abort, Context.Status, ResponseWriter.WriteHeaderNow,
    ResponseWriter.WriteHeader, hw]
  by_cases h : c.Writer.status = code
  · simp [h, hw]
  · simp [h, hw, hcode]

@[simp] theorem JSON_index (c : Context) (code : Int) (obj : List (String × String)) :
    (c.JSON code obj).index = c.index := by
  simp only [Context.JSON]; split <;> rfl

@[simp] theorem JSON_Request (c : Context) (code : Int) (obj : List (String × String)) :
    (c.JSON code obj).Request = c.Request := by
  simp only [Context.JSON]; split <;> rfl

@[simp] theorem JSON_Keys (c : Context) (code : Int) (obj : List (String × String)) :
    (c.JSON code obj).Keys = c.Keys := by
  simp only [Context.JSON]; split <;> rfl

@[simp] theorem JSON_Errors (c : Context) (code : Int) (obj : List (String × String)) :
    (c.JSON code obj).Errors = c.Errors := by
  simp only [Context.JSON]; split <;> rfl

@[simp] theorem JSON_log (c : Context) (code : Int) (obj : List (String × String)) :
    (c.JSON code obj).log = c.log := by
  simp only [Context.JSON]; split <;> rfl

@[simp] theorem JSON_GetString (c : Context) (code : Int) (obj : List (String × String))
    (key : String) : (c.JSON code obj).GetString key = c.GetString key := by
  simp [Context.GetString]

theorem writeContentType_Get (w : ResponseWriter) (value key : String)
    (hne : nethttp.CanonicalHeaderKey key ≠ "Content-Type") :
    (writeContentType w value).header.Get key = w.header.Get key := by
  unfold writeContentType
  split
  · rfl
  · simp [nethttp.Header.Get, AList.lookup_insert_ne hne]

@[simp] theorem writeContentType_status (w : ResponseWriter) (value : String) :
    (writeContentType w value).status = w.status := by
  unfold writeContentType; split <;> rfl

@[simp] theorem writeContentType_written (w : ResponseWriter) (value : String) :
    (writeContentType w value).written = w.written := by
  unfold writeContentType; split <;> rfl

@[simp] theorem writeContentType_body (w : ResponseWriter) (value : String) :
    (writeContentType w value).body = w.body := by
  unfold writeContentType; split <;> rfl

@[simp] theorem WriteHeader_header (w : ResponseWriter) (code : Int) :
    (w.WriteHeader code).header = w.header := by
  unfold ResponseWriter.WriteHeader; split <;> (try split) <;> rfl

@[simp] theorem WriteHeader_body (w : ResponseWriter) (code : Int) :
    (w.WriteHeader code).body = w.body := by
  unfold ResponseWriter.WriteHeader; split <;> (try split) <;> rfl

@[simp] theorem WriteHeader_written (w : ResponseWriter) (code : Int) :
    (w.WriteHeader code).written = w.written := by
  unfold ResponseWriter.WriteHeader; split <;> (try split) <;> rfl

@[simp] theorem WriteHeader_self (w : ResponseWriter) : w.WriteHeader w.status = w := by
  simp [ResponseWriter.WriteHeader]

@[simp] theorem WriteHeaderNow_header (w : ResponseWriter) :
    w.WriteHeaderNow.header = w.header := by
  unfold ResponseWriter.WriteHeaderNow; split <;> rfl

@[simp] theorem WriteHeaderNow_body (w : ResponseWriter) : w.WriteHeaderNow.body = w.body := by
  unfold ResponseWriter.WriteHeaderNow; split <;> rfl

@[simp] theorem WriteHeaderNow_status (w : ResponseWriter) :
    w.WriteHeaderNow.status = w.status := by
  unfold ResponseWriter.WriteHeaderNow; split <;> rfl

@[simp] theorem WriteHeaderNow_written (w : ResponseWriter) :
    w.WriteHeaderNow.written = true := by
  unfold ResponseWriter.WriteHeaderNow; split <;> simp_all

theorem JSON_header_Get (c : Context) (code : Int) (obj : List (String × String)) (key : String)
    (hne : nethttp.CanonicalHeaderKey key ≠ "Content-Type") :
    (c.JSON code obj).Writer.header.Get key = c.Writer.header.Get key := by
  simp only [Context.JSON]
  split <;> simp [ResponseWriter.Write, writeContentType_Get _ _ _ hne, Context.Status]

theorem runFrom_passed (hs : List HandlerFunc) (pos : Int) (c : Context)
    (h : pos + hs.length ≤ c.index) : runFrom hs pos c = .ok c := by
  induction hs generalizing pos with
  | nil => rfl
  | cons f rest ih =>
    have hlen : ((f :: rest).length : Int) = (rest.length : Int) + 1 := by simp
    rw [hlen] at h
    have hne : c.index ≠ pos := by omega
    simp only [runFrom, hne, if_false]
    exact ih (pos + 1) (by omega)

/-- One turn of the loop of `Next` when the handler at the current index returns with the index
at or beyond the end of the chain. -/
theorem runFrom_ok (f : HandlerFunc) (rest : List HandlerFunc) (pos : Int) (c c2 : Context)
    (hc : c.index = pos)
    (hf : f (fun c1 => runFrom rest (pos + 1) { c1 with index := c1.index + 1 }) c = .ok c2)
    (hi : pos + rest.length ≤ c2.index) :
    runFrom (f :: rest) pos c = .ok { c2 with index := c2.index + 1 } := by
  simp only [runFrom, hc, if_true, hf]
  exact runFrom_passed rest (pos + 1) _ (by simp only; omega)

/-- One turn of the loop of `Next` when the handler at the current index panics. -/
theorem runFrom_panicked (f : HandlerFunc) (rest : List HandlerFunc) (pos : Int)
    (c c2 : Context) (v : PanicValue) (hc : c.index = pos)
    (hf : f (fun c1 => runFrom rest (pos + 1) { c1 with index := c1.index + 1 }) c
      = .panicked c2 v) :
    runFrom (f :: rest) pos c = .panicked c2 v := by
  simp only [runFrom, hc, if_true, hf]

end gin

namespace middleware

open gin

theorem RequestID_eq (next : Context → Outcome) (c : Context) :
    RequestID next c = next (pipeline.afterRequestID c) := by
  by_cases h : c.GetHeader "X-Request-ID" = ""
  · simp only [RequestID, pipeline.afterRequestID, pipeline.requestIDOf, h, if_true, newRequestID]
  · simp only [RequestID, pipeline.afterRequestID, pipeline.requestIDOf, h, if_false]

/-- With a first element in each list, `CORS` sets the four headers and then either aborts with
204 (preflight) or hands the request on. -/
theorem CORS_of_heads (cfg : config.Config) (o m h : String) (os ms hs : List String)
    (hO : cfg.CorsAllowedOrigins = o :: os) (hM : cfg.CorsAllowedMethods = m :: ms)
    (hH : cfg.CorsAllowedHeaders = h :: hs) (next : Context → Outcome) (c : Context) :
    CORS cfg next c =
      if c.Request.Method = "OPTIONS" then
        .ok ((pipeline.afterCORSHeaders cfg o m h c).AbortWithStatus 204)
      else next (pipeline.afterCORSHeaders cfg o m h c) := by
  simp only [CORS, hO, hM, hH, List.getElem?_cons_zero, Header_Request,
    pipeline.afterCORSHeaders]

end middleware

namespace pipeline

open gin

theorem requestIDOf_ne_empty (c : Context) : requestIDOf c ≠ "" := by
  unfold requestIDOf
  split
  · exact uuid.UUID.String_ne_empty _
  · assumption

@[simp] theorem afterRequestID_index (c : Context) : (afterRequestID c).index = c.index := by
  simp only [afterRequestID, Header_index, Context.Set]; split <;> rfl

@[simp] theorem afterRequestID_Request (c : Context) :
    (afterRequestID c).Request = c.Request := by
  simp only [afterRequestID, Header_Request, Context.Set]; split <;> rfl

@[simp] theorem afterRequestID_log (c : Context) : (afterRequestID c).log = c.log := by
  simp only [afterRequestID, Header_log, Context.Set]; split <;> rfl

@[simp] theorem afterRequestID_status (c : Context) :
    (afterRequestID c).Writer.status = c.Writer.status := by
  simp only [afterRequestID, Header_status, Context.Set]; split <;> rfl

@[simp] theorem afterRequestID_written (c : Context) :
    (afterRequestID c).Writer.written = c.Writer.written := by
  simp only [afterRequestID, Header_written, Context.Set]; split <;> rfl

@[simp] theorem afterRequestID_body (c : Context) :
    (afterRequestID c).Writer.body = c.Writer.body := by
  simp only [afterRequestID, Header_body, Context.Set]; split <;> rfl

@[simp] theorem afterRequestID_GetString (c : Context) :
    (afterRequestID c).GetString "RequestID" = requestIDOf c := by
  simp [afterRequestID, Context.GetString, Context.Set, AList.lookup_insert]

@[simp] theorem afterRequestID_Get (c : Context) :
    (afterRequestID c).Writer.header.Get "X-Request-ID" = requestIDOf c := by
  simp only [afterRequestID]
  exact Context.Header_Get _ _ _

@[simp] theorem afterCORSHeaders_index (cfg : config.Config) (o m h : String) (c : Context) :
    (afterCORSHeaders cfg o m h c).index = c.index := by
  simp [afterCORSHeaders]

@[simp] theorem afterCORSHeaders_Request (cfg : config.Config) (o m h : String) (c : Context) :
    (afterCORSHeaders cfg o m h c).Request = c.Request := by
  simp [afterCORSHeaders]

@[simp] theorem afterCORSHeaders_log (cfg : config.Config) (o m h : String) (c : Context) :
    (afterCORSHeaders cfg o m h c).log = c.log := by
  simp [afterCORSHeaders]

@[simp] theorem afterCORSHeaders_Keys (cfg : config.Config) (o m h : String) (c : Context) :
    (afterCORSHeaders cfg o m h c).Keys = c.Keys := by
  simp [afterCORSHeaders]

@[simp] theorem afterCORSHeaders_Errors (cfg : config.Config) (o m h : String) (c : Context) :
    (afterCORSHeaders cfg o m h c).Errors = c.Errors := by
  simp [afterCORSHeaders]

@[simp] theorem afterCORSHeaders_status (cfg : config.Config) (o m h : String) (c : Context) :
    (afterCORSHeaders cfg o m h c).Writer.status = c.Writer.status := by
  simp [afterCORSHeaders]

@[simp] theorem afterCORSHeaders_written (cfg : config.Config) (o m h : String) (c : Context) :
    (afterCORSHeaders cfg o m h c).Writer.written = c.Writer.written := by
  simp [afterCORSHeaders]

@[simp] theorem afterCORSHeaders_body (cfg : config.Config) (o m h : String) (c : Context) :
    (afterCORSHeaders cfg o m h c).Writer.body = c.Writer.body := by
  simp [afterCORSHeaders]

@[simp] theorem afterCORSHeaders_GetString (cfg : config.Config) (o m h key : String)
    (c : Context) : (afterCORSHeaders cfg o m h c).GetString key = c.GetString key := by
  simp [afterCORSHeaders]

theorem afterCORSHeaders_Get_requestID (cfg : config.Config) (o m h : String) (c : Context) :
    (afterCORSHeaders cfg o m h c).Writer.header.Get "X-Request-ID"
      = c.Writer.header.Get "X-Request-ID" := by
  simp only [afterCORSHeaders]
  rw [Context.Header_Get_ne _ _ _ _ (by decide), Context.Header_Get_ne _ _ _ _ (by decide),
    Context.Header_Get_ne _ _ _ _ (by decide), Context.Header_Get_ne _ _ _ _ (by decide)]

end pipeline

/-! ## RequestID -/

/-- C1: `RequestID` hands the request to the rest of the chain exactly once: its result is the
result of that one call, on a context that does not depend on what the rest of the chain is and
that has the index, request, status, written flag, body, error list and log it received (so it
is not aborted and the handler registered next does run, as the last part states for the loop of
`Next`).  In that context one identifier is stored under the key `"RequestID"` and set as the
`X-Request-ID` response header.  The identifier is the inbound `X-Request-ID` header when that is
not empty, and otherwise the text of the identifier drawn from the UUID generator; it is never
empty. -/
theorem RequestID_contract (c : gin.Context) :
    ∃ (id : String) (c1 : gin.Context),
      (∀ next : gin.Context → gin.Outcome, middleware.RequestID next c = next c1)
      ∧ id ≠ ""
      ∧ (c.GetHeader "X-Request-ID" ≠ "" → id = c.GetHeader "X-Request-ID" ∧ c1.draws = c.draws)
      ∧ (c.GetHeader "X-Request-ID" = "" →
          id = (c.rand c.draws).String ∧ c1.draws = c.draws + 1)
      ∧ c1.Keys.lookup "RequestID" = some (logger.Value.str id)
      ∧ c1.GetString "RequestID" = id
      ∧ c1.Writer.header.lookup (nethttp.CanonicalHeaderKey "X-Request-ID") = some [id]
      ∧ c1.Writer.header.Get "X-Request-ID" = id
      ∧ c1.index = c.index
      ∧ c1.IsAborted = c.IsAborted
      ∧ c1.Request = c.Request
      ∧ c1.Writer.status = c.Writer.status
      ∧ c1.Writer.written = c.Writer.written
      ∧ c1.Writer.body = c.Writer.body
      ∧ c1.Errors = c.Errors
      ∧ c1.log = c.log
      ∧ c1.now = c.now
      ∧ (∀ (h : gin.HandlerFunc) (rest : List gin.HandlerFunc),
          gin.runFrom (middleware.RequestID :: h :: rest) c.index c =
            match
              (match h (fun c2 => gin.runFrom rest (c.index + 1 + 1)
                    { c2 with index := c2.index + 1 }) { c1 with index := c.index + 1 } with
                | gin.Outcome.ok c2 =>
                  gin.runFrom rest (c.index + 1 + 1) { c2 with index := c2.index + 1 }
                | gin.Outcome.panicked c2 v => gin.Outcome.panicked c2 v) with
            | gin.Outcome.ok c3 =>
              gin.runFrom (h :: rest) (c.index + 1) { c3 with index := c3.index + 1 }
            | gin.Outcome.panicked c3 v => gin.Outcome.panicked c3 v) := by
  have hchain : ∀ (c1 : gin.Context), c1.index = c.index →
      (∀ next : gin.Context → gin.Outcome, middleware.RequestID next c = next c1) →
      ∀ (h : gin.HandlerFunc) (rest : List gin.HandlerFunc),
        gin.runFrom (middleware.RequestID :: h :: rest) c.index c =
          match
            (match h (fun c2 => gin.runFrom rest (c.index + 1 + 1)
                  { c2 with index := c2.index + 1 }) { c1 with index := c.index + 1 } with
              | gin.Outcome.ok c2 =>
                gin.runFrom rest (c.index + 1 + 1) { c2 with index := c2.index + 1 }
              | gin.Outcome.panicked c2 v => gin.Outcome.panicked c2 v) with
          | gin.Outcome.ok c3 =>
            gin.runFrom (h :: rest) (c.index + 1) { c3 with index := c3.index + 1 }
          | gin.Outcome.panicked c3 v => gin.Outcome.panicked c3 v := by
    intro c1 hi hnext h rest
    rw [gin.runFrom]
    simp only [if_true, hnext]
    rw [gin.runFrom]
    simp only [hi, if_true]
  have hab : ∀ c1 : gin.Context, c1.index = c.index → c1.IsAborted = c.IsAborted := by
    intro c1 hi
    simp only [gin.Context.IsAborted, hi]
  by_cases h : c.GetHeader "X-Request-ID" = ""
  · have hne : (c.rand c.draws).String ≠ "" := uuid.UUID.String_ne_empty _
    have hnext : ∀ next : gin.Context → gin.Outcome, middleware.RequestID next c
        = next ((({ c with draws := c.draws + 1 } : gin.Context).Set "RequestID"
            (logger.Value.str (c.rand c.draws).String)).Header "X-Request-ID"
            (c.rand c.draws).String) := by
      intro next
      simp only [middleware.RequestID, h, if_true, middleware.newRequestID]
    refine ⟨(c.rand c.draws).String,
      (({ c with draws := c.draws + 1 } : gin.Context).Set "RequestID"
        (logger.Value.str (c.rand c.draws).String)).Header "X-Request-ID" (c.rand c.draws).String,
      hnext, hne, ?_, ?_, ?_, ?_, ?_, ?_, ?_, ?_, ?_, ?_, ?_, ?_, ?_, ?_, ?_, ?_⟩
    · intro h1; exact absurd h h1
    · intro _; simp [gin.Context.Header, gin.Context.Set, hne]
    · simp [gin.Context.Header, gin.Context.Set, hne, AList.lookup_insert]
    · simp [gin.Context.GetString, gin.Context.Header, gin.Context.Set, hne, AList.lookup_insert]
    · simp [gin.Context.Header, hne, nethttp.Header.Set, AList.lookup_insert]
    · exact gin.Context.Header_Get _ _ _
    · simp [gin.Context.Set]
    · exact hab _ (by simp [gin.Context.Set])
    · simp [gin.Context.Set]
    · simp [gin.Context.Set]
    · simp [gin.Context.Set]
    · simp [gin.Context.Set]
    · simp [gin.Context.Set]
    · simp [gin.Context.Set]
    · simp [gin.Context.Set]
    · exact hchain _ (by simp [gin.Context.Set]) hnext
  · have hnext : ∀ next : gin.Context → gin.Outcome, middleware.RequestID next c
        = next ((c.Set "RequestID" (logger.Value.str (c.GetHeader "X-Request-ID"))).Header
            "X-Request-ID" (c.GetHeader "X-Request-ID")) := by
      intro next
      simp only [middleware.RequestID, h, if_false]
    refine ⟨c.GetHeader "X-Request-ID",
      (c.Set "RequestID" (logger.Value.str (c.GetHeader "X-Request-ID"))).Header "X-Request-ID"
        (c.GetHeader "X-Request-ID"),
      hnext, h, ?_, ?_, ?_, ?_, ?_, ?_, ?_, ?_, ?_, ?_, ?_, ?_, ?_, ?_, ?_, ?_⟩
    · intro _; simp [gin.Context.Header, gin.Context.Set, h]
    · intro h1; exact absurd h1 h
    · simp [gin.Context.Header, gin.Context.Set, h, AList.lookup_insert]
    · simp [gin.Context.GetString, gin.Context.Header, gin.Context.Set, h, AList.lookup_insert]
    · simp [gin.Context.Header, h, nethttp.Header.Set, AList.lookup_insert]
    · exact gin.Context.Header_Get _ _ _
    · simp [gin.Context.Set]
    · exact hab _ (by simp [gin.Context.Set])
    · simp [gin.Context.Set]
    · simp [gin.Context.Set]
    · simp [gin.Context.Set]
    · simp [gin.Context.Set]
    · simp [gin.Context.Set]
    · simp [gin.Context.Set]
    · simp [gin.Context.Set]
    · exact hchain _ (by simp [gin.Context.Set]) hnext

/-! ## Logger -/

/-- C2, as the code has it: `Logger` calls the rest of the chain once and changes nothing but the
log.  When the rest of the chain returns (normally, with recorded errors, or aborted by the CORS
preflight branch) it adds no record for the exact paths `/health` and `/metrics` and exactly one
`Info` record, after everything the rest of the chain logged, for every other path.  When the
rest of the chain panics, `Logger` adds no record and the panic goes on to `Recovery`. -/
theorem Logger_record_policy (next : gin.Context → gin.Outcome) (c : gin.Context) :
    (middleware.Logger next c).returned = (next c).returned
    ∧ ∃ recs : List logger.Call,
        (middleware.Logger next c).ctx = { (next c).ctx with log := (next c).ctx.log ++ recs }
        ∧ recs.length =
            (if (next c).returned = true ∧ c.Request.Path ≠ "/health"
                ∧ c.Request.Path ≠ "/metrics" then 1 else 0)
        ∧ ∀ r ∈ recs, r.level = logger.Level.InfoLevel ∧ r.msg = "HTTP request log" := by
  rcases hn : next c with c1 | ⟨c1, v⟩
  · by_cases hp : c.Request.Path = "/health" ∨ c.Request.Path = "/metrics"
    · refine ⟨by simp [middleware.Logger, hn, hp, gin.Outcome.returned], [], ?_, ?_, ?_⟩
      · simp [middleware.Logger, hn, hp, gin.Outcome.ctx]
      · rcases hp with hp | hp <;> simp [hp]
      · simp
    · have hp1 : c.Request.Path ≠ "/health" := fun h => hp (Or.inl h)
      have hp2 : c.Request.Path ≠ "/metrics" := fun h => hp (Or.inr h)
      refine ⟨by simp [middleware.Logger, hn, hp, gin.Outcome.returned],
        [⟨logger.Level.InfoLevel, "HTTP request log",
          [middleware.logFields c1
            (if c.Request.RawQuery ≠ "" then c.Request.Path ++ "?" ++ c.Request.RawQuery
              else c.Request.Path) c.now]⟩], ?_, ?_, ?_⟩
      · simp only [middleware.Logger, hn, hp, if_false, gin.Outcome.ctx, middleware.logInfo]
      · simp [gin.Outcome.returned, hp1, hp2]
      · simp
  · refine ⟨by simp [middleware.Logger, hn, gin.Outcome.returned], [], ?_, ?_, ?_⟩
    · simp [middleware.Logger, hn, gin.Outcome.ctx]
    · simp [gin.Outcome.returned]
    · simp

set_option maxRecDepth 100000 in
/-- C2 as stated fails: a request `GET /boom` whose handler panics is answered 500 by `Recovery`,
the path is neither `/health` nor `/metrics`, and no record at all reaches the logger. -/
theorem Logger_no_record_after_panic :
    pipeline.completed (examples.withPanickingRoute.ServeHTTP
        { examples.ping with Path := "/boom" } [] 0 examples.rand 0) = true
    ∧ (pipeline.ctxOf (examples.withPanickingRoute.ServeHTTP
        { examples.ping with Path := "/boom" } [] 0 examples.rand 0)).Writer.status = 500
    ∧ (pipeline.ctxOf (examples.withPanickingRoute.ServeHTTP
        { examples.ping with Path := "/boom" } [] 0 examples.rand 0)).log = [] := by
  decide

/-! ## The preflight branch of CORS in the registered chain -/

namespace pipeline

open gin middleware

/-- A preflight request through the first four handlers registered by `setupMiddleware`: the
result does not depend on the handlers registered after `CORS`. -/
theorem preflight_chain (cfg : config.Config) (o m h : String) (os ms hs : List String)
    (hO : cfg.CorsAllowedOrigins = o :: os) (hM : cfg.CorsAllowedMethods = m :: ms)
    (hH : cfg.CorsAllowedHeaders = h :: hs) (c : Context) (hi : c.index = -1)
    (hopt : c.Request.Method = "OPTIONS") :
    ∃ c1 : Context,
      (∀ tail : List HandlerFunc, 4 + tail.length < 63 →
        c.Next ([Recovery, RequestID, Logger, CORS cfg] ++ tail) = .ok c1)
      ∧ (c.Writer.written = false → c1.Writer.status = 204)
      ∧ c1.Writer.written = true
      ∧ c1.Writer.body = c.Writer.body
      ∧ c1.Errors = c.Errors
      ∧ c1.IsAborted = true := by
  let F3 : Context → Context := fun c3 =>
    { (afterCORSHeaders cfg o m h c3).AbortWithStatus 204 with index := 64 }
  let F2 : Context → Context := fun c2 =>
    if c2.Request.Path = "/health" ∨ c2.Request.Path = "/metrics" then
      { F3 { c2 with index := 3 } with index := 65 }
    else
      { logInfo (F3 { c2 with index := 3 }) "HTTP request log"
          [logFields (F3 { c2 with index := 3 })
            (if c2.Request.RawQuery ≠ "" then c2.Request.Path ++ "?" ++ c2.Request.RawQuery
              else c2.Request.Path) c2.now] with index := 65 }
  have h3 : ∀ (tail : List HandlerFunc) (c3 : Context), 4 + tail.length < 63 → c3.index = 3 →
      c3.Request.Method = "OPTIONS" → runFrom (CORS cfg :: tail) 3 c3 = .ok (F3 c3) := by
    intro tail c3 hlen hc3 hm3
    have := runFrom_ok (CORS cfg) tail 3 c3 ((afterCORSHeaders cfg o m h c3).AbortWithStatus 204)
      hc3 (by rw [CORS_of_heads cfg o m h os ms hs hO hM hH]; simp [hm3])
      (by simp only [AbortWithStatus_index]; omega)
    simpa [F3] using this
  have h2 : ∀ (tail : List HandlerFunc) (c2 : Context), 4 + tail.length < 63 → c2.index = 2 →
      c2.Request.Method = "OPTIONS" →
      runFrom (Logger :: CORS cfg :: tail) 2 c2 = .ok (F2 c2) := by
    intro tail c2 hlen hc2 hm2
    have hk : runFrom (CORS cfg :: tail) (2 + 1) { c2 with index := c2.index + 1 }
        = .ok (F3 { c2 with index := 3 }) := by
      have := h3 tail { c2 with index := 3 } hlen rfl hm2
      simpa [hc2] using this
    by_cases hp : c2.Request.Path = "/health" ∨ c2.Request.Path = "/metrics"
    · have := runFrom_ok Logger (CORS cfg :: tail) 2 c2 (F3 { c2 with index := 3 }) hc2
        (by simp only [Logger, hk, hp, if_true])
        (by simp only [F3, List.length_cons]; push_cast; omega)
      simpa [F2, hp, F3] using this
    · have := runFrom_ok Logger (CORS cfg :: tail) 2 c2
        (logInfo (F3 { c2 with index := 3 }) "HTTP request log"
          [logFields (F3 { c2 with index := 3 })
            (if c2.Request.RawQuery ≠ "" then c2.Request.Path ++ "?" ++ c2.Request.RawQuery
              else c2.Request.Path) c2.now]) hc2
        (by simp only [Logger, hk, hp, if_false])
        (by simp only [F3, logInfo, List.length_cons]; push_cast; omega)
      simpa [F2, hp, F3, logInfo] using this
  have hF2i : ∀ c2 : Context, (F2 c2).index = 65 := by
    intro c2
    simp only [F2]
    split <;> rfl
  have h1 : ∀ (tail : List HandlerFunc) (c1 : Context), 4 + tail.length < 63 → c1.index = 1 →
      c1.Request.Method = "OPTIONS" →
      runFrom (RequestID :: Logger :: CORS cfg :: tail) 1 c1
        = .ok { F2 { afterRequestID c1 with index := 2 } with index := 66 } := by
    intro tail c1 hlen hc1 hm1
    have := runFrom_ok RequestID (Logger :: CORS cfg :: tail) 1 c1
      (F2 { afterRequestID c1 with index := 2 }) hc1
      (by
        rw [RequestID_eq]
        have := h2 tail { afterRequestID c1 with index := 2 } hlen rfl (by simpa using hm1)
        simpa [hc1] using this)
      (by rw [hF2i]; simp only [List.length_cons]; push_cast; omega)
    simpa [hF2i] using this
  have h0 : ∀ (tail : List HandlerFunc) (c0 : Context), 4 + tail.length < 63 → c0.index = 0 →
      c0.Request.Method = "OPTIONS" →
      runFrom (Recovery :: RequestID :: Logger :: CORS cfg :: tail) 0 c0
        = .ok { F2 { afterRequestID { c0 with index := 1 } with index := 2 } with index := 67 } := by
    intro tail c0 hlen hc0 hm0
    have hk := h1 tail { c0 with index := 1 } hlen rfl hm0
    have := runFrom_ok Recovery (RequestID :: Logger :: CORS cfg :: tail) 0 c0
      { F2 { afterRequestID { c0 with index := 1 } with index := 2 } with index := 66 } hc0
      (by
        have hk1 : runFrom (RequestID :: Logger :: CORS cfg :: tail) (0 + 1)
            { c0 with index := c0.index + 1 }
            = .ok { F2 { afterRequestID { c0 with index := 1 } with index := 2 }
                with index := 66 } := by
          simpa [hc0] using hk
        simp only [Recovery, hk1])
      (by simp only [List.length_cons]; push_cast; omega)
    simpa using this
  refine ⟨{ F2 { afterRequestID { c with index := 1 } with index := 2 } with index := 67 },
    ?_, ?_, ?_, ?_, ?_, ?_⟩
  · intro tail hlen
    have := h0 tail { c with index := 0 } hlen rfl hopt
    simpa [Context.Next, hi] using this
  · intro hw
    simp only [F2]
    split
    · simp only [F3]
      exact AbortWithStatus_status _ _ (by decide) (by simpa using hw)
    · simp only [F3, logInfo]
      exact AbortWithStatus_status _ _ (by decide) (by simpa using hw)
  · simp only [F2]
    split <;> simp [F3, logInfo]
  · simp only [F2]
    split <;> simp [F3, logInfo]
  · simp only [F2]
    split <;> simp [F3, logInfo, afterRequestID, Context.Set] <;> split <;> rfl
  · simp [Context.IsAborted, abortIndex]

end pipeline

namespace server

open gin middleware

theorem setupMiddleware_Handlers (cfg : config.Config) :
    (setupMiddleware cfg gin.New).Handlers
      = [Recovery, RequestID, Logger, CORS cfg] ++ [ErrorHandler] := rfl

theorem NewServer_Handlers (cfg : config.Config) :
    (NewServer cfg).Handlers = [Recovery, RequestID, Logger, CORS cfg] ++ [ErrorHandler] := rfl

theorem NewServer_routes (cfg : config.Config) :
    (NewServer cfg).routes =
      [("GET", "/health", [Recovery, RequestID, Logger, CORS cfg, ErrorHandler, healthHandler]),
       ("GET", "/api/v1/ping",
          [Recovery, RequestID, Logger, CORS cfg, ErrorHandler, pingHandler])] := rfl

theorem corsListsNonEmpty_heads (cfg : config.Config)
    (hv : pipeline.corsListsNonEmpty cfg = true) :
    ∃ o os m ms h hs, cfg.CorsAllowedOrigins = o :: os ∧ cfg.CorsAllowedMethods = m :: ms
      ∧ cfg.CorsAllowedHeaders = h :: hs := by
  obtain ⟨env, port, origins, methods, headers, age⟩ := cfg
  cases origins with
  | nil => simp [pipeline.corsListsNonEmpty] at hv
  | cons o os =>
    cases methods with
    | nil => simp [pipeline.corsListsNonEmpty] at hv
    | cons m ms =>
      cases headers with
      | nil => simp [pipeline.corsListsNonEmpty] at hv
      | cons h hs => exact ⟨o, os, m, ms, h, hs, rfl, rfl, rfl⟩

end server

/-- C3, for a configuration whose three CORS lists are not empty.  A request with method
`OPTIONS`, on any path, is answered by the server with status 204 and an empty body; through the
handlers registered up to `CORS` it gives the same result whatever handlers are registered after
`CORS` (`ErrorHandler`, route handlers), so none of them runs; `CORS` returns an aborted context
without calling the rest of the chain.  For any other method `CORS` calls the rest of the chain
exactly once and leaves status, written flag, body and index as they were. -/
theorem CORS_preflight_short_circuit (cfg : config.Config)
    (hv : pipeline.corsListsNonEmpty cfg = true) :
    (∀ (req : nethttp.Request) (log : List logger.Call) (now : Nat) (rand : Nat → uuid.UUID)
        (draws : Nat), req.Method = "OPTIONS" →
        ∃ c : gin.Context, (server.NewServer cfg).ServeHTTP req log now rand draws
            = gin.Served.handled (gin.Outcome.ok c)
          ∧ c.Writer.status = 204 ∧ c.Writer.written = true ∧ c.Writer.body = [])
    ∧ (server.setupMiddleware cfg gin.New).Handlers
        = [gin.Recovery, middleware.RequestID, middleware.Logger, middleware.CORS cfg]
            ++ [middleware.ErrorHandler]
    ∧ (∀ (c : gin.Context) (tail : List gin.HandlerFunc), c.index = -1 →
        c.Request.Method = "OPTIONS" → 4 + tail.length < 63 →
        c.Next ([gin.Recovery, middleware.RequestID, middleware.Logger, middleware.CORS cfg]
            ++ tail)
          = c.Next [gin.Recovery, middleware.RequestID, middleware.Logger, middleware.CORS cfg])
    ∧ (∀ c : gin.Context, c.Request.Method = "OPTIONS" →
        ∃ c1 : gin.Context, (∀ next, middleware.CORS cfg next c = gin.Outcome.ok c1)
          ∧ c1.IsAborted = true ∧ (c.Writer.written = false → c1.Writer.status = 204))
    ∧ (∀ c : gin.Context, c.Request.Method ≠ "OPTIONS" →
        ∃ c1 : gin.Context, (∀ next, middleware.CORS cfg next c = next c1)
          ∧ c1.Writer.status = c.Writer.status ∧ c1.Writer.written = c.Writer.written
          ∧ c1.Writer.body = c.Writer.body ∧ c1.index = c.index) := by
  obtain ⟨o, os, m, ms, h, hs, hO, hM, hH⟩ := server.corsListsNonEmpty_heads cfg hv
  refine ⟨?_, rfl, ?_, ?_, ?_⟩
  · intro req log now rand draws hopt
    obtain ⟨c1, hc1, hst, hwr, hbody, -, -⟩ :=
      pipeline.preflight_chain cfg o m h os ms hs hO hM hH
        { gin.Context.reset req log now rand draws with
          Writer := { (gin.Context.reset req log now rand draws).Writer with status := 404 } }
        rfl hopt
    refine ⟨c1, ?_, hst rfl, hwr, hbody⟩
    have hlook : (server.NewServer cfg).lookup req.Method req.Path = none := by
      simp [gin.Engine.lookup, server.NewServer_routes, hopt]
    have htsr : (server.NewServer cfg).tsr req.Method req.Path = false := by
      simp [gin.Engine.tsr, server.NewServer_routes, hopt]
    have hrun := hc1 [middleware.ErrorHandler] (by simp)
    simp only [gin.Engine.ServeHTTP, gin.Engine.handleHTTPRequest, gin.Context.reset, hlook, htsr,
      gin.serveError, server.NewServer_Handlers]
    simp only [gin.Context.reset, List.cons_append, List.nil_append] at hrun
    simp [hrun, hwr]
  · intro c tail hi hopt hlen
    obtain ⟨c1, hc1, -⟩ := pipeline.preflight_chain cfg o m h os ms hs hO hM hH c hi hopt
    rw [hc1 tail hlen]
    have := hc1 [] (by simp)
    simpa using this.symm
  · intro c hopt
    refine ⟨(pipeline.afterCORSHeaders cfg o m h c).AbortWithStatus 204, ?_, ?_, ?_⟩
    · intro next
      rw [middleware.CORS_of_heads cfg o m h os ms hs hO hM hH]
      simp [hopt]
    · simp [gin.Context.IsAborted, gin.abortIndex]
    · intro hw
      exact gin.AbortWithStatus_status _ _ (by decide) (by simpa using hw)
  · intro c hopt
    refine ⟨pipeline.afterCORSHeaders cfg o m h c, ?_, by simp, by simp, by simp, by simp⟩
    intro next
    rw [middleware.CORS_of_heads cfg o m h os ms hs hO hM hH]
    simp [hopt]

/-- C3 on a concrete configuration and preflight request. -/
theorem CORS_preflight_short_circuit_witness :
    pipeline.corsListsNonEmpty examples.cfg = true
    ∧ ∃ c : gin.Context,
        (server.NewServer examples.cfg).ServeHTTP examples.preflight [] 0 examples.rand 0
          = gin.Served.handled (gin.Outcome.ok c)
        ∧ c.Writer.status = 204 ∧ c.Writer.written = true ∧ c.Writer.body = [] :=
  ⟨by decide,
    (CORS_preflight_short_circuit examples.cfg (by decide)).1 examples.preflight [] 0
      examples.rand 0 rfl⟩

set_option maxRecDepth 100000 in
/-- C3 as stated fails when a CORS list is empty: with no allowed origin a preflight request is
answered 500 by `Recovery`, not 204. -/
theorem preflight_without_origins_is_500 :
    pipeline.completed ((server.NewServer examples.cfgNoOrigin).ServeHTTP examples.preflight []
        0 examples.rand 0) = true
    ∧ (pipeline.ctxOf ((server.NewServer examples.cfgNoOrigin).ServeHTTP examples.preflight []
        0 examples.rand 0)).Writer.status = 500
    ∧ (pipeline.ctxOf ((server.NewServer examples.cfgNoOrigin).ServeHTTP examples.preflight []
        0 examples.rand 0)).Writer.status ≠ 204 := by
  decide

/-! ## ErrorHandler -/

namespace gin

theorem JSON_same_status (c : Context) (obj : List (String × String)) :
    (c.JSON c.Writer.status obj).Writer.status = c.Writer.status := by
  simp only [Context.JSON, Context.Status, WriteHeader_self]
  split <;> simp [ResponseWriter.Write]

theorem JSON_same_status_body (c : Context) (obj : List (String × String)) :
    (c.JSON c.Writer.status obj).Writer.body =
      if bodyAllowedForStatus c.Writer.status = true then c.Writer.body ++ [Chunk.json obj]
      else c.Writer.body := by
  simp only [Context.JSON, Context.Status, WriteHeader_self]
  by_cases hb : bodyAllowedForStatus c.Writer.status = true
  · simp [hb, ResponseWriter.Write]
  · simp [hb]

end gin

namespace middleware

open gin

theorem ErrorHandler_of_ok (next : Context → Outcome) (c c1 : Context) (hn : next c = .ok c1) :
    ErrorHandler next c =
      match c1.Errors.getLast? with
      | some err => .ok (c1.JSON c1.Writer.status [("error", err.Err)])
      | none => .ok c1 := by
  simp only [ErrorHandler, hn, errorMsgs.Last]
  cases hE : c1.Errors with
  | nil => simp
  | cons e es =>
    simp only [List.length_cons, Nat.zero_lt_succ, if_true]

end middleware

/-- C4, as the code has it.  After the rest of the chain has returned: with an empty error list
`ErrorHandler` changes nothing; with a non-empty error list it leaves the status as it was, and,
when that status allows a body, writes the envelope of the message of the last error after what
was already written; when the status is 1xx, 204 or 304 it writes no body.  The error list itself
is left as it was. -/
theorem ErrorHandler_contract (next : gin.Context → gin.Outcome) (c c1 : gin.Context)
    (hn : next c = gin.Outcome.ok c1) :
    (c1.Errors = [] → middleware.ErrorHandler next c = gin.Outcome.ok c1)
    ∧ (∀ e : gin.Error, c1.Errors.getLast? = some e →
        ∃ c2 : gin.Context, middleware.ErrorHandler next c = gin.Outcome.ok c2
          ∧ c2.Writer.status = c1.Writer.status
          ∧ c2.Errors = c1.Errors
          ∧ (gin.bodyAllowedForStatus c1.Writer.status = true →
              c2.Writer.body = c1.Writer.body ++ [pipeline.envelope e.Err])
          ∧ (gin.bodyAllowedForStatus c1.Writer.status = false →
              c2.Writer.body = c1.Writer.body)) := by
  refine ⟨?_, ?_⟩
  · intro hE
    rw [middleware.ErrorHandler_of_ok next c c1 hn, hE]
    rfl
  · intro e he
    refine ⟨c1.JSON c1.Writer.status [("error", e.Err)], ?_, gin.JSON_same_status _ _,
      gin.JSON_Errors _ _ _, ?_, ?_⟩
    · rw [middleware.ErrorHandler_of_ok next c c1 hn, he]
    · intro hb
      rw [gin.JSON_same_status_body, if_pos hb]
      rfl
    · intro hb
      rw [gin.JSON_same_status_body]
      simp [hb]

/-- C4 on a handler that answers 400 and records the error `invalid`. -/
theorem ErrorHandler_contract_witness :
    ∃ c2 : gin.Context,
      middleware.ErrorHandler (fun c => gin.Outcome.ok ((c.Status 400).Error "invalid"))
          (gin.Context.reset examples.ping [] 0 examples.rand 0) = gin.Outcome.ok c2
      ∧ c2.Writer.status = 400
      ∧ c2.Writer.body = [pipeline.envelope "invalid"] := by
  obtain ⟨c2, h1, h2, -, h4, -⟩ :=
    (ErrorHandler_contract (fun c => gin.Outcome.ok ((c.Status 400).Error "invalid"))
      (gin.Context.reset examples.ping [] 0 examples.rand 0)
      (((gin.Context.reset examples.ping [] 0 examples.rand 0).Status 400).Error "invalid")
      rfl).2 ⟨"invalid", none⟩ rfl
  exact ⟨c2, h1, h2.trans (by decide), (h4 (by decide)).trans (by decide)⟩

/-- C4 as stated fails for a status that allows no body: after a handler that sets 204 and
records an error, the error list is not empty and `ErrorHandler` returns with no envelope
written. -/
theorem ErrorHandler_writes_no_envelope_on_204 :
    (middleware.ErrorHandler (examples.noContentWithError (fun c => gin.Outcome.ok c))
        (gin.Context.reset examples.ping [] 0 examples.rand 0)).returned = true
    ∧ (middleware.ErrorHandler (examples.noContentWithError (fun c => gin.Outcome.ok c))
        (gin.Context.reset examples.ping [] 0 examples.rand 0)).ctx.Errors
        = [{ Err := "gone", Meta := none }]
    ∧ (middleware.ErrorHandler (examples.noContentWithError (fun c => gin.Outcome.ok c))
        (gin.Context.reset examples.ping [] 0 examples.rand 0)).ctx.Writer.status = 204
    ∧ (middleware.ErrorHandler (examples.noContentWithError (fun c => gin.Outcome.ok c))
        (gin.Context.reset examples.ping [] 0 examples.rand 0)).ctx.Writer.body = [] := by
  decide

/-- C5, as the code has it.  When the rest of the chain returns with at least one recorded error
and a status that allows a body, the body after `ErrorHandler` is what had been written before
followed by the envelope of the last error: the envelope is appended and replaces nothing, so the
body is exactly the envelope if and only if nothing had been written. -/
theorem ErrorHandler_appends_envelope (next : gin.Context → gin.Outcome) (c c1 : gin.Context)
    (hn : next c = gin.Outcome.ok c1) (hE : c1.Errors ≠ [])
    (hb : gin.bodyAllowedForStatus c1.Writer.status = true) :
    ∃ e : gin.Error, c1.Errors.getLast? = some e
      ∧ (middleware.ErrorHandler next c).returned = true
      ∧ (middleware.ErrorHandler next c).ctx.Writer.body
          = c1.Writer.body ++ [pipeline.envelope e.Err]
      ∧ ((middleware.ErrorHandler next c).ctx.Writer.body = [pipeline.envelope e.Err]
          ↔ c1.Writer.body = []) := by
  cases he : c1.Errors.getLast? with
  | none => exact absurd (List.getLast?_eq_none_iff.1 he) hE
  | some e =>
    have hres : middleware.ErrorHandler next c
        = gin.Outcome.ok (c1.JSON c1.Writer.status [("error", e.Err)]) := by
      rw [middleware.ErrorHandler_of_ok next c c1 hn, he]
    have hbody : (middleware.ErrorHandler next c).ctx.Writer.body
        = c1.Writer.body ++ [pipeline.envelope e.Err] := by
      rw [hres]
      simp only [gin.Outcome.ctx]
      rw [gin.JSON_same_status_body, if_pos hb]
      rfl
    refine ⟨e, rfl, by rw [hres]; rfl, hbody, ?_⟩
    rw [hbody]
    constructor
    · intro h
      have h1 : c1.Writer.body ++ [pipeline.envelope e.Err] = [] ++ [pipeline.envelope e.Err] := by
        simpa using h
      exact List.append_cancel_right h1
    · intro h
      rw [h]
      rfl

/-- C5 on a handler that writes nothing, answers 400 and records the error `invalid`. -/
theorem ErrorHandler_appends_envelope_witness :
    ∃ e : gin.Error,
      (((gin.Context.reset examples.ping [] 0 examples.rand 0).Status 400).Error
          "invalid").Errors.getLast? = some e
      ∧ (middleware.ErrorHandler (fun c => gin.Outcome.ok ((c.Status 400).Error "invalid"))
          (gin.Context.reset examples.ping [] 0 examples.rand 0)).returned = true
      ∧ (middleware.ErrorHandler (fun c => gin.Outcome.ok ((c.Status 400).Error "invalid"))
          (gin.Context.reset examples.ping [] 0 examples.rand 0)).ctx.Writer.body
          = (((gin.Context.reset examples.ping [] 0 examples.rand 0).Status 400).Error
              "invalid").Writer.body ++ [pipeline.envelope e.Err]
      ∧ ((middleware.ErrorHandler (fun c => gin.Outcome.ok ((c.Status 400).Error "invalid"))
          (gin.Context.reset examples.ping [] 0 examples.rand 0)).ctx.Writer.body
            = [pipeline.envelope e.Err]
          ↔ (((gin.Context.reset examples.ping [] 0 examples.rand 0).Status 400).Error
              "invalid").Writer.body = []) :=
  ErrorHandler_appends_envelope (fun c => gin.Outcome.ok ((c.Status 400).Error "invalid"))
    (gin.Context.reset examples.ping [] 0 examples.rand 0)
    (((gin.Context.reset examples.ping [] 0 examples.rand 0).Status 400).Error "invalid")
    rfl (by decide) (by decide)

/-- C5 as stated fails: after a handler that has written a JSON body with status 400 and then
recorded an error, the body is that first payload followed by the envelope, not the envelope
alone. -/
theorem ErrorHandler_keeps_partial_body :
    (middleware.ErrorHandler (examples.writesThenFails (fun c => gin.Outcome.ok c))
        (gin.Context.reset examples.ping [] 0 examples.rand 0)).ctx.Writer.body
      = [gin.Chunk.json [("message", "bad input")], pipeline.envelope "invalid"]
    ∧ (middleware.ErrorHandler (examples.writesThenFails (fun c => gin.Outcome.ok c))
        (gin.Context.reset examples.ping [] 0 examples.rand 0)).ctx.Writer.body
      ≠ [pipeline.envelope "invalid"] := by
  decide

/-! ## The request identifier in the access log -/

namespace pipeline

open gin middleware

theorem Keeps.rfl (c : Context) : Keeps c c := ⟨Eq.refl _, Eq.refl _, Eq.refl _⟩

theorem Keeps.trans {a b c : Context} (h1 : Keeps a b) (h2 : Keeps b c) : Keeps a c :=
  ⟨h2.1.trans h1.1, h2.2.1.trans h1.2.1, h2.2.2.trans h1.2.2⟩

theorem Keeps.index (c : Context) (i : Int) : Keeps c { c with index := i } :=
  ⟨Eq.refl _, Eq.refl _, Eq.refl _⟩

theorem Keeps.JSON (c : Context) (code : Int) (obj : List (String × String)) :
    Keeps c (c.JSON code obj) :=
  ⟨JSON_GetString _ _ _ _, JSON_header_Get _ _ _ _ (by decide), JSON_log _ _ _⟩

theorem Keeps.afterCORSHeaders (cfg : config.Config) (o m h : String) (c : Context) :
    Keeps c (afterCORSHeaders cfg o m h c) :=
  ⟨afterCORSHeaders_GetString _ _ _ _ _ _, afterCORSHeaders_Get_requestID _ _ _ _ _,
    afterCORSHeaders_log _ _ _ _ _⟩

theorem Keeps.AbortWithStatus (c : Context) (code : Int) : Keeps c (c.AbortWithStatus code) :=
  ⟨by simp [Context.GetString], by simp, by simp⟩

theorem logFields_request_id (c : Context) (path : String) (start : Nat) :
    (logFields c path start).lookup "request_id"
      = some (logger.Value.str (c.GetString "RequestID")) := by
  simp only [logFields, logger.Fields.literal, List.foldl]
  rw [AList.lookup_insert_ne (by decide), AList.lookup_insert_ne (by decide),
    AList.lookup_insert_ne (by decide), AList.lookup_insert_ne (by decide),
    AList.lookup_insert_ne (by decide), AList.lookup_insert_ne (by decide),
    AList.lookup_insert]

theorem tailKeeps_nil : TailKeeps [] := by
  intro c _
  exact ⟨c, rfl, Keeps.rfl c, by simp; omega⟩

theorem tailKeeps_json (code : Int) (obj : List (String × String)) :
    TailKeeps [fun _ c => .ok (c.JSON code obj)] := by
  intro c hc
  refine ⟨{ c.JSON code obj with index := (c.JSON code obj).index + 1 }, ?_, ?_, ?_⟩
  · exact runFrom_ok _ [] 5 c _ hc rfl (by simp [hc])
  · exact (Keeps.JSON c code obj).trans (Keeps.index _ _)
  · simp [hc]

/-- The handler `ErrorHandler` and what follows it, entered at index 4. -/
theorem run_ErrorHandler (tail : List HandlerFunc) (ht : TailKeeps tail) (c : Context)
    (hc : c.index = 4) :
    ∃ c1 : Context, runFrom (ErrorHandler :: tail) 4 c = .ok c1 ∧ Keeps c c1
      ∧ 5 + (tail.length : Int) ≤ c1.index := by
  obtain ⟨cT, hT, hk, hidx⟩ := ht { c with index := c.index + 1 } (by simp [hc])
  have hnext : (fun c1 : Context => runFrom tail (4 + 1) { c1 with index := c1.index + 1 }) c
      = .ok cT := hT
  have hEH := ErrorHandler_of_ok
    (fun c1 : Context => runFrom tail (4 + 1) { c1 with index := c1.index + 1 }) c cT hnext
  cases hl : cT.Errors.getLast? with
  | none =>
    rw [hl] at hEH
    refine ⟨{ cT with index := cT.index + 1 }, runFrom_ok _ _ 4 c cT hc hEH (by omega), ?_, ?_⟩
    · exact ((Keeps.index c _).trans hk).trans (Keeps.index _ _)
    · simp only; omega
  | some e =>
    rw [hl] at hEH
    refine ⟨{ cT.JSON cT.Writer.status [("error", e.Err)] with
        index := (cT.JSON cT.Writer.status [("error", e.Err)]).index + 1 },
      runFrom_ok _ _ 4 c _ hc hEH (by simp only [JSON_index]; omega), ?_, ?_⟩
    · exact (((Keeps.index c _).trans hk).trans (Keeps.JSON _ _ _)).trans (Keeps.index _ _)
    · simp only [JSON_index]; omega

/-- The handler `CORS` and what follows it, entered at index 3: either the chain returns and has
kept the identifier, the header and the log, or a CORS list is empty and the chain panics with
the log untouched. -/
theorem run_CORS (cfg : config.Config) (tail : List HandlerFunc) (ht : TailKeeps tail)
    (hlen : 5 + tail.length < 63) (c : Context) (hc : c.index = 3) :
    (∃ c1 : Context, runFrom (CORS cfg :: ErrorHandler :: tail) 3 c = .ok c1 ∧ Keeps c c1
        ∧ 5 + (tail.length : Int) ≤ c1.index ∧ corsListsNonEmpty cfg = true)
    ∨ (corsListsNonEmpty cfg = false
        ∧ ∃ (c1 : Context) (v : PanicValue),
            runFrom (CORS cfg :: ErrorHandler :: tail) 3 c = .panicked c1 v ∧ c1.log = c.log) := by
  by_cases hv : corsListsNonEmpty cfg = true
  · left
    obtain ⟨o, os, m, ms, h, hs, hO, hM, hH⟩ := server.corsListsNonEmpty_heads cfg hv
    by_cases hopt : c.Request.Method = "OPTIONS"
    · refine ⟨{ (afterCORSHeaders cfg o m h c).AbortWithStatus 204 with index := 63 + 1 },
        ?_, ?_, ?_, hv⟩
      · exact runFrom_ok _ _ 3 c _ hc
          (by rw [CORS_of_heads cfg o m h os ms hs hO hM hH]; simp [hopt])
          (by simp only [AbortWithStatus_index, List.length_cons]; push_cast; omega)
      · exact ((Keeps.afterCORSHeaders cfg o m h c).trans (Keeps.AbortWithStatus _ _)).trans
          (Keeps.index _ _)
      · simp only; omega
    · obtain ⟨cE, hE, hk, hidx⟩ := run_ErrorHandler tail ht
        { afterCORSHeaders cfg o m h c with index := (afterCORSHeaders cfg o m h c).index + 1 }
        (by simp [hc])
      refine ⟨{ cE with index := cE.index + 1 }, ?_, ?_, ?_, hv⟩
      · exact runFrom_ok _ _ 3 c cE hc
          (by rw [CORS_of_heads cfg o m h os ms hs hO hM hH]; simpa [hopt] using hE)
          (by simp only [List.length_cons]; push_cast; omega)
      · exact (((Keeps.afterCORSHeaders cfg o m h c).trans (Keeps.index _ _)).trans hk).trans
          (Keeps.index _ _)
      · simp only; omega
  · right
    have hv1 : corsListsNonEmpty cfg = false := by simpa using hv
    refine ⟨hv1, ?_⟩
    obtain ⟨env, port, origins, methods, headers, age⟩ := cfg
    cases origins with
    | nil =>
      exact ⟨c, indexOutOfRange, runFrom_panicked _ _ 3 c _ _ hc (by simp [CORS]), rfl⟩
    | cons o os =>
      cases methods with
      | nil =>
        exact ⟨_, indexOutOfRange, runFrom_panicked _ _ 3 c _ _ hc (by simp [CORS]; rfl),
          by simp⟩
      | cons m ms =>
        cases headers with
        | nil =>
          exact ⟨_, indexOutOfRange, runFrom_panicked _ _ 3 c _ _ hc (by simp [CORS]; rfl),
            by simp⟩
        | cons h hs => simp [corsListsNonEmpty] at hv1

end pipeline

namespace pipeline

open gin middleware

/-- The handler `Logger` and what follows it, entered at index 2. -/
theorem run_Logger (cfg : config.Config) (tail : List HandlerFunc) (ht : TailKeeps tail)
    (hlen : 5 + tail.length < 63) (c : Context) (hc : c.index = 2) :
    (∃ (c1 : Context) (recs : List logger.Call),
        runFrom (Logger :: CORS cfg :: ErrorHandler :: tail) 2 c = .ok c1
        ∧ c1.log = c.log ++ recs
        ∧ c1.Writer.header.Get "X-Request-ID" = c.Writer.header.Get "X-Request-ID"
        ∧ (∀ r ∈ recs, requestIDField r = some (c.GetString "RequestID"))
        ∧ recs.length
            = (if c.Request.Path = "/health" ∨ c.Request.Path = "/metrics" then 0 else 1)
        ∧ 5 + (tail.length : Int) ≤ c1.index ∧ corsListsNonEmpty cfg = true)
    ∨ (corsListsNonEmpty cfg = false
        ∧ ∃ (c1 : Context) (v : PanicValue),
            runFrom (Logger :: CORS cfg :: ErrorHandler :: tail) 2 c = .panicked c1 v
            ∧ c1.log = c.log) := by
  rcases run_CORS cfg tail ht hlen { c with index := c.index + 1 } (by simp [hc]) with
    ⟨cC, hC, hk, hidx, hv⟩ | ⟨hv, cC, v, hC, hlog⟩
  · left
    have hnext : (fun c1 : Context => runFrom (CORS cfg :: ErrorHandler :: tail) (2 + 1)
        { c1 with index := c1.index + 1 }) c = .ok cC := hC
    by_cases hp : c.Request.Path = "/health" ∨ c.Request.Path = "/metrics"
    · refine ⟨{ cC with index := cC.index + 1 }, [], ?_, ?_, ?_, ?_, ?_, ?_, hv⟩
      · exact runFrom_ok _ _ 2 c cC hc (by simp only [Logger, hnext, hp, if_true])
          (by simp only [List.length_cons]; push_cast; omega)
      · simpa using hk.2.2
      · exact hk.2.1
      · simp
      · simp [hp]
      · simp only; omega
    · refine ⟨{ logInfo cC "HTTP request log"
            [logFields cC
              (if c.Request.RawQuery ≠ "" then c.Request.Path ++ "?" ++ c.Request.RawQuery
                else c.Request.Path) c.now] with index := cC.index + 1 },
          [⟨logger.Level.InfoLevel, "HTTP request log",
            [logFields cC
              (if c.Request.RawQuery ≠ "" then c.Request.Path ++ "?" ++ c.Request.RawQuery
                else c.Request.Path) c.now]⟩], ?_, ?_, ?_, ?_, ?_, ?_, hv⟩
      · exact runFrom_ok _ _ 2 c _ hc (by simp only [Logger, hnext, hp, if_false])
          (by simp only [logInfo, List.length_cons]; push_cast; omega)
      · simp only [logInfo]
        rw [hk.2.2]
      · simpa [logInfo] using hk.2.1
      · intro r hr
        rw [List.mem_singleton] at hr
        subst hr
        simp only [requestIDField, logFields_request_id]
        rw [hk.1]
        rfl
      · simp [hp]
      · simp only [logInfo]; omega
  · right
    refine ⟨hv, cC, v, ?_, hlog⟩
    have hnext : (fun c1 : Context => runFrom (CORS cfg :: ErrorHandler :: tail) (2 + 1)
        { c1 with index := c1.index + 1 }) c = .panicked cC v := hC
    exact runFrom_panicked _ _ 2 c _ _ hc (by simp only [Logger, hnext])

/-- The handler `RequestID` and what follows it, entered at index 1. -/
theorem run_RequestID (cfg : config.Config) (tail : List HandlerFunc) (ht : TailKeeps tail)
    (hlen : 5 + tail.length < 63) (c : Context) (hc : c.index = 1) :
    (∃ (c1 : Context) (recs : List logger.Call),
        runFrom (RequestID :: Logger :: CORS cfg :: ErrorHandler :: tail) 1 c = .ok c1
        ∧ c1.log = c.log ++ recs
        ∧ c1.Writer.header.Get "X-Request-ID" = requestIDOf c
        ∧ (∀ r ∈ recs, requestIDField r = some (requestIDOf c))
        ∧ recs.length
            = (if c.Request.Path = "/health" ∨ c.Request.Path = "/metrics" then 0 else 1)
        ∧ 5 + (tail.length : Int) ≤ c1.index ∧ corsListsNonEmpty cfg = true)
    ∨ (corsListsNonEmpty cfg = false
        ∧ ∃ (c1 : Context) (v : PanicValue),
            runFrom (RequestID :: Logger :: CORS cfg :: ErrorHandler :: tail) 1 c
              = .panicked c1 v
            ∧ c1.log = c.log) := by
  rcases run_Logger cfg tail ht hlen
      { afterRequestID c with index := (afterRequestID c).index + 1 } (by simp [hc]) with
    ⟨cL, recs, hL, hlog, hget, hrecs, hn, hidx, hv⟩ | ⟨hv, cL, v, hL, hlog⟩
  · left
    refine ⟨{ cL with index := cL.index + 1 }, recs, ?_, ?_, ?_, ?_, ?_, ?_, hv⟩
    · exact runFrom_ok _ _ 1 c cL hc (by rw [RequestID_eq]; exact hL)
        (by simp only [List.length_cons]; push_cast; omega)
    · simpa using hlog
    · simpa using hget
    · intro r hr
      have := hrecs r hr
      simpa [Context.GetString, afterRequestID, Context.Set, AList.lookup_insert] using this
    · simpa using hn
    · simp only; omega
  · right
    refine ⟨hv, cL, v, ?_, by simpa using hlog⟩
    exact runFrom_panicked _ _ 1 c _ _ hc (by rw [RequestID_eq]; exact hL)

/-- The whole chain registered by `setupMiddleware`, followed by route handlers that keep the
identifier, for a fresh context: it always returns; what it adds to the log is at most one record;
the `request_id` of every record it adds is the `X-Request-ID` response header, which is the
identifier `RequestID` settled on. -/
theorem run_chain (cfg : config.Config) (tail : List HandlerFunc) (ht : TailKeeps tail)
    (hlen : 5 + tail.length < 63) (c : Context) (hc : c.index = -1) :
    ∃ (c1 : Context) (recs : List logger.Call),
      c.Next (Recovery :: RequestID :: Logger :: CORS cfg :: ErrorHandler :: tail) = .ok c1
      ∧ c1.log = c.log ++ recs
      ∧ (∀ r ∈ recs, requestIDField r = some (c1.Writer.header.Get "X-Request-ID")
          ∧ requestIDField r = some (requestIDOf c))
      ∧ (corsListsNonEmpty cfg = true →
          recs.length
            = (if c.Request.Path = "/health" ∨ c.Request.Path = "/metrics" then 0 else 1))
      ∧ (corsListsNonEmpty cfg = false → recs = []) := by
  have hreq : requestIDOf { c with index := c.index + 1 + 1 } = requestIDOf c := rfl
  rcases run_RequestID cfg tail ht hlen { c with index := c.index + 1 + 1 } (by simp [hc]) with
    ⟨cR, recs, hR, hlog, hget, hrecs, hn, hidx, hv⟩ | ⟨hv, cR, v, hR, hlog⟩
  · have hnext : (fun c1 : Context =>
        runFrom (RequestID :: Logger :: CORS cfg :: ErrorHandler :: tail) (0 + 1)
          { c1 with index := c1.index + 1 }) { c with index := c.index + 1 } = .ok cR := hR
    refine ⟨{ cR with index := cR.index + 1 }, recs, ?_, ?_, ?_, ?_, ?_⟩
    · exact runFrom_ok _ _ 0 { c with index := c.index + 1 } cR (by simp [hc])
        (by simp only [Recovery, hnext]) (by simp only [List.length_cons]; push_cast; omega)
    · simpa using hlog
    · intro r hr
      refine ⟨?_, by rw [← hreq]; exact hrecs r hr⟩
      rw [hrecs r hr]
      simp only [hget]
    · intro _
      simpa using hn
    · intro hv1
      rw [hv] at hv1
      exact absurd hv1 (by decide)
  · have hnext : (fun c1 : Context =>
        runFrom (RequestID :: Logger :: CORS cfg :: ErrorHandler :: tail) (0 + 1)
          { c1 with index := c1.index + 1 }) { c with index := c.index + 1 }
          = .panicked cR v := hR
    have hlog1 : cR.log = c.log := by simpa using hlog
    by_cases hb : v.brokenConn = true
    · refine ⟨{ (cR.Error v.msg).Abort with index := (cR.Error v.msg).Abort.index + 1 }, [],
        ?_, ?_, ?_, ?_, ?_⟩
      · exact runFrom_ok _ _ 0 { c with index := c.index + 1 } _ (by simp [hc])
          (by simp only [Recovery, hnext, hb, if_true])
          (by simp only [Context.Abort, abortIndex, List.length_cons]; push_cast; omega)
      · simpa [Context.Abort, Context.Error] using hlog1
      · simp
      · intro hv1
        rw [hv] at hv1
        exact absurd hv1 (by decide)
      · intro _; rfl
    · refine ⟨{ cR.AbortWithStatus 500 with index := (cR.AbortWithStatus 500).index + 1 }, [],
        ?_, ?_, ?_, ?_, ?_⟩
      · exact runFrom_ok _ _ 0 { c with index := c.index + 1 } _ (by simp [hc])
          (by simp only [Recovery, hnext, hb]; rfl)
          (by simp only [AbortWithStatus_index, List.length_cons]; push_cast; omega)
      · simpa using hlog1
      · simp
      · intro hv1
        rw [hv] at hv1
        exact absurd hv1 (by decide)
      · intro _; rfl

end pipeline

namespace server

open gin middleware

theorem NewServer_lookup (cfg : config.Config) (method path : String)
    (hs : List HandlerFunc) (h : (NewServer cfg).lookup method path = some hs) :
    (path = "/health"
        ∧ hs = Recovery :: RequestID :: Logger :: CORS cfg :: ErrorHandler :: [healthHandler])
    ∨ (path = "/api/v1/ping"
        ∧ hs = Recovery :: RequestID :: Logger :: CORS cfg :: ErrorHandler :: [pingHandler]) := by
  unfold Engine.lookup at h
  rw [NewServer_routes] at h
  simp only [List.find?] at h
  cases h1 : ("GET" == method && "/health" == path) with
  | true =>
    simp only [h1, Option.map_some', Option.some.injEq] at h
    left
    simp only [Bool.and_eq_true, beq_iff_eq] at h1
    exact ⟨h1.2.symm, h.symm⟩
  | false =>
    cases h2 : ("GET" == method && "/api/v1/ping" == path) with
    | true =>
      simp only [h1, h2, Option.map_some', Option.some.injEq] at h
      right
      simp only [Bool.and_eq_true, beq_iff_eq] at h2
      exact ⟨h2.2.symm, h.symm⟩
    | false => simp [h1, h2] at h

end server

/-- C6: for a request on a path other than `/health` and `/metrics`, whatever the
configuration, the server adds at most one record to the log, and the `request_id` field of a
record it adds is the `X-Request-ID` header of the response, which is the inbound `X-Request-ID`
header when that is not empty and the generated identifier otherwise.  When the three CORS lists
are not empty and the request goes through the handler chain, exactly one record is added. -/
theorem access_log_request_id_matches_header (cfg : config.Config) (req : nethttp.Request)
    (log : List logger.Call) (now : Nat) (rand : Nat → uuid.UUID) (draws : Nat)
    (hp1 : req.Path ≠ "/health") (hp2 : req.Path ≠ "/metrics") :
    ∃ recs : List logger.Call,
      (pipeline.ctxOf ((server.NewServer cfg).ServeHTTP req log now rand draws)).log
          = log ++ recs
      ∧ (∀ r ∈ recs,
          pipeline.requestIDField r = some ((pipeline.ctxOf
              ((server.NewServer cfg).ServeHTTP req log now rand draws)).Writer.header.Get
                "X-Request-ID")
          ∧ pipeline.requestIDField r
              = some (if req.Header.Get "X-Request-ID" = "" then (rand draws).String
                      else req.Header.Get "X-Request-ID"))
      ∧ recs.length ≤ 1
      ∧ (pipeline.corsListsNonEmpty cfg = true →
          pipeline.wasHandled ((server.NewServer cfg).ServeHTTP req log now rand draws) = true →
          recs.length = 1) := by
  have hpath : ¬ (req.Path = "/health" ∨ req.Path = "/metrics") := by
    rintro (h | h)
    · exact hp1 h
    · exact hp2 h
  have hlen1 : ∀ (recs : List logger.Call),
      (pipeline.corsListsNonEmpty cfg = true → recs.length = 1) →
      (pipeline.corsListsNonEmpty cfg = false → recs = []) → recs.length ≤ 1 := by
    intro recs h1 h2
    cases hv : pipeline.corsListsNonEmpty cfg with
    | true => rw [h1 hv]
    | false => rw [h2 hv]; simp
  simp only [gin.Engine.ServeHTTP, gin.Engine.handleHTTPRequest]
  cases hl : (server.NewServer cfg).lookup (gin.Context.reset req log now rand draws).Request.Method
      (gin.Context.reset req log now rand draws).Request.Path with
  | some hs =>
    rcases server.NewServer_lookup cfg _ _ hs hl with ⟨hp, -⟩ | ⟨-, rfl⟩
    · exact absurd hp hp1
    · obtain ⟨c1, recs, hrun, hlog, hrecs, hn, he⟩ :=
        pipeline.run_chain cfg [server.pingHandler] (pipeline.tailKeeps_json 200 _) (by simp)
          (gin.Context.reset req log now rand draws) rfl
      simp only [hrun, pipeline.ctxOf, gin.Outcome.ctx, gin.WriteHeaderNow_header]
      refine ⟨recs, hlog, hrecs, hlen1 recs ?_ he, ?_⟩
      · intro hv
        have := hn hv
        simpa [gin.Context.reset, hpath] using this
      · intro hv _
        have := hn hv
        simpa [gin.Context.reset, hpath] using this
  | none =>
    dsimp only
    split
    · exact ⟨[], by simp [pipeline.ctxOf, gin.Context.reset], by simp, by simp,
        by simp [pipeline.wasHandled]⟩
    · obtain ⟨c1, recs, hrun, hlog, hrecs, hn, he⟩ :=
        pipeline.run_chain cfg [] pipeline.tailKeeps_nil (by simp)
          { gin.Context.reset req log now rand draws with
            Writer := { (gin.Context.reset req log now rand draws).Writer with status := 404 } }
          rfl
      have hlen : recs.length ≤ 1 := by
        refine hlen1 recs ?_ he
        intro hv
        have := hn hv
        simpa [gin.Context.reset, hpath] using this
      have hone : pipeline.corsListsNonEmpty cfg = true → recs.length = 1 := by
        intro hv
        have := hn hv
        simpa [gin.Context.reset, hpath] using this
      simp only [gin.serveError, server.NewServer_Handlers, List.cons_append, List.nil_append,
        hrun]
      split
      · exact ⟨recs, hlog, hrecs, hlen, fun hv _ => hone hv⟩
      · split
        · refine ⟨recs, hlog, ?_, hlen, fun hv _ => hone hv⟩
          intro r hr
          refine ⟨?_, (hrecs r hr).2⟩
          rw [(hrecs r hr).1]
          simp [pipeline.ctxOf, gin.Outcome.ctx, gin.ResponseWriter.Write,
            nethttp.Header.Get, AList.lookup_insert_ne
              (show nethttp.CanonicalHeaderKey "X-Request-ID" ≠ "Content-Type" by decide)]
        · exact ⟨recs, hlog, by simpa [pipeline.ctxOf, gin.Outcome.ctx] using hrecs, hlen,
            fun hv _ => hone hv⟩

/-- C6 on `GET /api/v1/ping` with the example configuration: one record is added. -/
theorem access_log_request_id_matches_header_witness :
    examples.ping.Path ≠ "/health" ∧ examples.ping.Path ≠ "/metrics"
    ∧ ∃ recs : List logger.Call,
        (pipeline.ctxOf ((server.NewServer examples.cfg).ServeHTTP examples.ping [] 0
            examples.rand 0)).log = [] ++ recs
        ∧ (∀ r ∈ recs,
            pipeline.requestIDField r = some ((pipeline.ctxOf
              ((server.NewServer examples.cfg).ServeHTTP examples.ping [] 0
                examples.rand 0)).Writer.header.Get "X-Request-ID"))
        ∧ recs.length = 1 := by
  obtain ⟨recs, h1, h2, -, h4⟩ :=
    access_log_request_id_matches_header examples.cfg examples.ping [] 0 examples.rand 0
      (by decide) (by decide)
  exact ⟨by decide, by decide, recs, h1, fun r hr => (h2 r hr).1, h4 (by decide) (by decide)⟩

/-! ## The CORS headers -/

set_option maxRecDepth 100000 in
/-- C8 fails on the code: with `CorsMaxAge = 3600` the `Access-Control-Max-Age` header of the
response to `GET /api/v1/ping` is the one-character text of the code point U+0E10, not the
decimal text `3600`; and the two different max-age values 55296 and 55297 give the same header
text (that of U+FFFD). -/
theorem CORS_max_age_header_is_rune_text :
    examples.cfg.CorsMaxAge = 3600
    ∧ golang.Itoa examples.cfg.CorsMaxAge = "3600"
    ∧ (pipeline.ctxOf ((server.NewServer examples.cfg).ServeHTTP examples.ping [] 0
        examples.rand 0)).Writer.header.Get "Access-Control-Max-Age"
        = String.singleton (Char.ofNat 3600)
    ∧ (pipeline.ctxOf ((server.NewServer examples.cfg).ServeHTTP examples.ping [] 0
        examples.rand 0)).Writer.header.Get "Access-Control-Max-Age"
        ≠ golang.Itoa examples.cfg.CorsMaxAge
    ∧ (pipeline.ctxOf ((server.NewServer { examples.cfg with CorsMaxAge := 55296 }).ServeHTTP
        examples.ping [] 0 examples.rand 0)).Writer.header.Get "Access-Control-Max-Age"
      = (pipeline.ctxOf ((server.NewServer { examples.cfg with CorsMaxAge := 55297 }).ServeHTTP
        examples.ping [] 0 examples.rand 0)).Writer.header.Get "Access-Control-Max-Age" := by
  decide

/-- C10: when each of the three CORS lists has a first element, `CORS` does not fail: it sets
the three headers so that each reads back as the first element of its list (the context it
produces is determined by the three first elements and the max-age alone), and then aborts with
204 or calls the rest of the chain.  What is stored for each header is the first element as the
single value, except that `c.Header` stores nothing for an empty string, which also reads back
as the empty string.  When one of the lists is empty, `CORS` panics with an index error on every
request, `OPTIONS` included, without calling the rest of the chain and without aborting or
touching the status. -/
theorem CORS_reads_first_elements (cfg : config.Config) (c : gin.Context) :
    (pipeline.corsListsNonEmpty cfg = true →
      ∃ o m h : String,
        cfg.CorsAllowedOrigins.head? = some o ∧ cfg.CorsAllowedMethods.head? = some m
        ∧ cfg.CorsAllowedHeaders.head? = some h
        ∧ (∀ next, middleware.CORS cfg next c =
            if c.Request.Method = "OPTIONS" then
              gin.Outcome.ok ((pipeline.afterCORSHeaders cfg o m h c).AbortWithStatus 204)
            else next (pipeline.afterCORSHeaders cfg o m h c))
        ∧ (pipeline.afterCORSHeaders cfg o m h c).Writer.header.Get
            "Access-Control-Allow-Origin" = o
        ∧ (pipeline.afterCORSHeaders cfg o m h c).Writer.header.Get
            "Access-Control-Allow-Methods" = m
        ∧ (pipeline.afterCORSHeaders cfg o m h c).Writer.header.Get
            "Access-Control-Allow-Headers" = h
        ∧ (pipeline.afterCORSHeaders cfg o m h c).Writer.header.lookup
            (nethttp.CanonicalHeaderKey "Access-Control-Allow-Origin")
            = (if o = "" then none else some [o])
        ∧ (pipeline.afterCORSHeaders cfg o m h c).Writer.header.lookup
            (nethttp.CanonicalHeaderKey "Access-Control-Allow-Methods")
            = (if m = "" then none else some [m])
        ∧ (pipeline.afterCORSHeaders cfg o m h c).Writer.header.lookup
            (nethttp.CanonicalHeaderKey "Access-Control-Allow-Headers")
            = (if h = "" then none else some [h])
        ∧ ((pipeline.afterCORSHeaders cfg o m h c).AbortWithStatus 204).Writer.header
            = (pipeline.afterCORSHeaders cfg o m h c).Writer.header)
    ∧ (pipeline.corsListsNonEmpty cfg = false →
      ∃ c1 : gin.Context,
        (∀ next, middleware.CORS cfg next c = gin.Outcome.panicked c1 middleware.indexOutOfRange)
        ∧ c1.index = c.index ∧ c1.Writer.status = c.Writer.status
        ∧ c1.Writer.written = c.Writer.written ∧ c1.Writer.body = c.Writer.body) := by
  constructor
  · intro hv
    obtain ⟨o, os, m, ms, h, hs, hO, hM, hH⟩ := server.corsListsNonEmpty_heads cfg hv
    refine ⟨o, m, h, by rw [hO]; rfl, by rw [hM]; rfl, by rw [hH]; rfl,
      fun next => middleware.CORS_of_heads cfg o m h os ms hs hO hM hH next c, ?_, ?_, ?_,
      ?_, ?_, ?_, gin.AbortWithStatus_header _ _⟩
    · simp only [pipeline.afterCORSHeaders]
      rw [gin.Context.Header_Get_ne _ _ _ _ (by decide),
        gin.Context.Header_Get_ne _ _ _ _ (by decide),
        gin.Context.Header_Get_ne _ _ _ _ (by decide), gin.Context.Header_Get]
    · simp only [pipeline.afterCORSHeaders]
      rw [gin.Context.Header_Get_ne _ _ _ _ (by decide),
        gin.Context.Header_Get_ne _ _ _ _ (by decide), gin.Context.Header_Get]
    · simp only [pipeline.afterCORSHeaders]
      rw [gin.Context.Header_Get_ne _ _ _ _ (by decide), gin.Context.Header_Get]
    · simp only [pipeline.afterCORSHeaders]
      rw [gin.Context.Header_lookup_ne _ _ _ _ (by decide),
        gin.Context.Header_lookup_ne _ _ _ _ (by decide),
        gin.Context.Header_lookup_ne _ _ _ _ (by decide), gin.Context.Header_lookup]
    · simp only [pipeline.afterCORSHeaders]
      rw [gin.Context.Header_lookup_ne _ _ _ _ (by decide),
        gin.Context.Header_lookup_ne _ _ _ _ (by decide), gin.Context.Header_lookup]
    · simp only [pipeline.afterCORSHeaders]
      rw [gin.Context.Header_lookup_ne _ _ _ _ (by decide), gin.Context.Header_lookup]
  · intro hv
    obtain ⟨env, port, origins, methods, headers, age⟩ := cfg
    cases origins with
    | nil => exact ⟨c, fun next => by simp [middleware.CORS], rfl, rfl, rfl, rfl⟩
    | cons o os =>
      cases methods with
      | nil =>
        exact ⟨c.Header "Access-Control-Allow-Origin" o,
          fun next => by simp [middleware.CORS], by simp, by simp, by simp, by simp⟩
      | cons m ms =>
        cases headers with
        | nil =>
          exact ⟨(c.Header "Access-Control-Allow-Origin" o).Header
              "Access-Control-Allow-Methods" m,
            fun next => by simp [middleware.CORS], by simp, by simp, by simp, by simp⟩
        | cons h hs => simp [pipeline.corsListsNonEmpty] at hv
